import Mathlib

/-!
Verification development for the grabr repository (React element context
extraction for AI coding agents).

The definitions below are a shallow embedding of the TypeScript sources:

* src/internal/serializable.ts  (truncateText)
* src/internal/dom.ts           (dedupeElementsPreserveOrder, summarizeTextContent)
* src/internal/prompt.ts        (promptChecksum, stringifyForPrompt,
                                 renderElementContextPrompt, renderSessionPrompt)
* src/internal/heuristics.ts    (nextLikeFrameworkStrategy, basicDataSourceStrategy,
                                 buildAppContext, mergeRuntimeConfig,
                                 validateRuntimeConfigOrThrow)
* the controller / overlay / builder module (GrabrController.finalizeSelection,
  SelectionOverlay.finalizeSelection, mapWithConcurrencyLimit, createGrabrClient)

Modelling conventions:
* JavaScript strings are Lean `String`s; the string operations the code uses
  (trim, replace(/\s+/g, " "), split, toLowerCase, includes, endsWith) are
  re-implemented structurally over `List Char` so that every definition is
  executable and kernel-reducible.
* JavaScript numbers are modelled as `Int` where the code manipulates
  integral quantities (32-bit hashing is modelled with explicit mod 2^32
  arithmetic); fractional floating point behaviour is not needed by any of
  the code paths under verification.
* DOM `Element` references are an abstract type with decidable equality
  (reference equality in JS); external effects (inspector results, provider
  delivery, clock, crypto) are parameters of the embedded functions.
* Fallible code (`throw`) is embedded with `Except`; `null`/`undefined`
  become `Option`.
-/

namespace Grabr

/-! ### JavaScript string primitives -/

/-- Whitespace class used by JavaScript's String.prototype.trim and the
regular-expression class \s: ASCII whitespace plus NBSP, BOM and the
line/paragraph separators.  (The code only ever feeds DOM text content
through it; the exact extension of the exotic part is irrelevant to the
claims, what matters is that trim and \s agree, as they do in JS.) -/
def isJsWs (c : Char) : Bool :=
  c = ' ' || c = '\t' || c = '\n' || c = '\r' ||
  c = (Char.ofNat 11) || c = (Char.ofNat 12) ||
  c = (Char.ofNat 0xa0) || c = (Char.ofNat 0xfeff) ||
  c = (Char.ofNat 0x2028) || c = (Char.ofNat 0x2029)

/-- List-level version of JavaScript String.prototype.trim: drop the
leading and trailing whitespace run. -/
def trimChars (cs : List Char) : List Char :=
  ((cs.dropWhile isJsWs).reverse.dropWhile isJsWs).reverse

/-- List-level version of text.replace(/\s+/g, " "): each maximal run of
whitespace characters is replaced by one space.  The Bool argument records
whether the previously emitted character came from a whitespace run, which
is exactly the state the global regex replacement carries. -/
def collapseWsAux : Bool → List Char → List Char
  | _, [] => []
  | prevWs, c :: rest =>
    if isJsWs c then
      if prevWs then collapseWsAux true rest
      else ' ' :: collapseWsAux true rest
    else c :: collapseWsAux false rest

/-- Embedding of text.trim().replace(/\s+/g, " ") from truncateText. -/
def trimCollapse (s : String) : String :=
  String.mk (collapseWsAux false (trimChars s.toList))

/-- Embedding of truncateText from src/internal/serializable.ts:
trim and whitespace-collapse the text; if the collapsed text fits in
limit characters return it, otherwise cut it to limit characters and
append a single ellipsis character. -/
def truncateText (text : String) (limit : Nat) : String :=
  let trimmed := trimCollapse text
  if trimmed.length ≤ limit then trimmed
  else String.mk (trimmed.toList.take limit) ++ "…"

/-- Maximum snippet length constant MAX_TEXT_SNIPPET from src/internal/dom.ts. -/
def MAX_TEXT_SNIPPET : Nat := 80

/-- Embedding of summarizeTextContent from src/internal/dom.ts: the element's
text content (when present) truncated to MAX_TEXT_SNIPPET, with the empty
summary mapped back to null. -/
def summarizeTextContent (textContent : Option String) : Option String :=
  match textContent with
  | none => none
  | some text =>
    let summarized := truncateText text MAX_TEXT_SNIPPET
    if summarized.length = 0 then none else some summarized

/-- Decides whether the list needle occurs as a contiguous prefix of haystack. -/
def startsWithCh : List Char → List Char → Bool
  | [], _ => true
  | _ :: _, [] => false
  | x :: xs, y :: ys => x = y && startsWithCh xs ys

/-- Decides whether needle occurs contiguously anywhere inside haystack;
this is JavaScript's String.prototype.includes. -/
def containsSeq (needle : List Char) : List Char → Bool
  | [] => startsWithCh needle []
  | c :: rest => startsWithCh needle (c :: rest) || containsSeq needle rest

/-- Embedding of path.includes(sub). -/
def strContains (s sub : String) : Bool :=
  containsSeq sub.toList s.toList

/-- Embedding of path.endsWith(suffix). -/
def strEndsWith (s suffix : String) : Bool :=
  startsWithCh suffix.toList.reverse s.toList.reverse

/-- Embedding of s.toLowerCase(); the code only lower-cases ASCII
identifier-like names and path segments, on which JavaScript's
toLowerCase agrees with Char.toLower. -/
def lowerStr (s : String) : String :=
  String.mk (s.toList.map Char.toLower)

/-- Embedding of String.prototype.split with a one-character separator:
groups between separators are kept, including empty leading/trailing groups. -/
def splitOnCh (sep : Char) : List Char → List (List Char)
  | [] => [[]]
  | c :: rest =>
    let r := splitOnCh sep rest
    if c = sep then [] :: r
    else
      match r with
      | [] => [[c]]
      | g :: gs => (c :: g) :: gs

/-- String-level split on a separator character. -/
def strSplit (s : String) (sep : Char) : List String :=
  (splitOnCh sep s.toList).map String.mk

/-- Joins a list of strings with a separator, as Array.prototype.join. -/
def joinWith (sep : String) : List String → String
  | [] => ""
  | [x] => x
  | x :: xs => x ++ sep ++ joinWith sep xs

/-! ### Prompt checksum (prompt.ts) -/

/-- JavaScript ToInt32: reduce mod 2^32 into the signed range
[-2^31, 2^31).  This is what both the << shift operand coercion and the
hash |= 0 truncation perform. -/
def toInt32 (x : Int) : Int :=
  if x % 4294967296 < 2147483648 then x % 4294967296
  else x % 4294967296 - 4294967296

/-- One iteration of the promptChecksum loop from src/internal/prompt.ts:
hash = (hash << 5) - hash + charCode, then hash |= 0.  The shift is
32-bit (hash << 5 is ToInt32(hash · 32)), the sum is exact, and |= 0
truncates back to a signed 32-bit value. -/
def jsHashStep (hash : Int) (code : Nat) : Int :=
  toInt32 (toInt32 (hash * 32) - hash + code)

/-- The full fold of the promptChecksum loop, starting from hash = 0. -/
def jsHashFold (codes : List Nat) : Int :=
  codes.foldl jsHashStep 0

/-- UTF-16 code units of the string; all characters the serializer can emit
are in the basic multilingual plane, where code units and code points agree. -/
def charCodes (s : String) : List Nat :=
  s.toList.map Char.toNat

/-- Lower-case hexadecimal rendering of a natural number, as
Number.prototype.toString(16) on a non-negative integer. -/
def toHexNat (n : Nat) : String :=
  String.mk (Nat.toDigits 16 n)

/-- Embedding of promptChecksum from src/internal/prompt.ts: fold the
hash over the code units, then render Math.abs(hash >>> 0) in hex.
hash >>> 0 is the unsigned 32-bit value (the non-negative residue mod
2^32), on which Math.abs is the identity. -/
def promptChecksum (input : String) : String :=
  toHexNat ((jsHashFold (charCodes input)) % 4294967296).toNat

/-- Modelled from the spec's own words, for comparison with promptChecksum
(claim C8): the left fold of hash := hash · 31 + charCode reduced modulo
2^32 at every step, with the final 32-bit value rendered as an unsigned
hexadecimal string. -/
def specRollingChecksum (input : String) : String :=
  toHexNat ((charCodes input).foldl (fun h c => (h * 31 + c) % 4294967296) 0)

/-! ### Runtime configuration validation (heuristics.ts) -/

/-- Embedding of validateRuntimeConfigOrThrow from src/internal/heuristics.ts.
The inspector mode is a string at runtime; maxReactStackFrames is a JS
number, checked by isFiniteIntegerInRange(·, 1, 64) — on the integers the
model works with, that check is exactly 1 ≤ n ∧ n ≤ 64. -/
def validateRuntimeConfigOrThrow (reactInspectorMode : String)
    (maxReactStackFrames : Int) : Except String Unit :=
  if reactInspectorMode ≠ "best-effort" ∧ reactInspectorMode ≠ "required" ∧
      reactInspectorMode ≠ "off" then
    Except.error ("Invalid config.reactInspectorMode: expected \"best-effort\" | \"required\" | \"off\", got " ++ reactInspectorMode)
  else if ¬ (1 ≤ maxReactStackFrames ∧ maxReactStackFrames ≤ 64) then
    Except.error ("Invalid config.maxReactStackFrames: expected integer in range [1, 64], got " ++ toString maxReactStackFrames)
  else
    Except.ok ()

/-- Embedding of the config part of mergeRuntimeConfig from
src/internal/heuristics.ts: absent fields (undefined, modelled as none)
fall back to defaultRuntimeConfig, whose mode is "best-effort" and whose
frame limit is 8.  JavaScript's ?? keeps every present value, including 0. -/
def mergeRuntimeConfig (partialMode : Option String) (partialFrames : Option Int) :
    String × Int :=
  (partialMode.getD "best-effort", partialFrames.getD 8)

/-- Embedding of the configuration-validation step of createGrabrClient
(controller module): the merged config is validated synchronously before
any controller or overlay is constructed. -/
def createGrabrClientValidation (partialMode : Option String)
    (partialFrames : Option Int) : Except String Unit :=
  let merged := mergeRuntimeConfig partialMode partialFrames
  validateRuntimeConfigOrThrow merged.1 merged.2

/-! ### Order-preserving dedupe (dom.ts) -/

/-- Embedding of the loop of dedupeElementsPreserveOrder from
src/internal/dom.ts; seen is the membership set accumulated so far. -/
def dedupeAux {E : Type} [DecidableEq E] (seen : List E) : List E → List E
  | [] => []
  | e :: rest =>
    if e ∈ seen then dedupeAux seen rest
    else e :: dedupeAux (e :: seen) rest

/-- Embedding of dedupeElementsPreserveOrder from src/internal/dom.ts:
keep the first occurrence of every element, in input order. -/
def dedupeElementsPreserveOrder {E : Type} [DecidableEq E] (elements : List E) : List E :=
  dedupeAux [] elements

/-! ### JSON values (the serializable data JSON.stringify consumes) -/

mutual

/-- JSON-serializable JavaScript value: the domain of JSON.stringify as the
prompt serializer uses it.  undefined is represented where it can occur
(absent optional fields, replacer results) by Option at the use site. -/
inductive JVal where
  | null : JVal
  | bool (b : Bool) : JVal
  | num (n : Int) : JVal
  | str (s : String) : JVal
  | arr (items : JArr) : JVal
  | obj (fields : JObj) : JVal

/-- Array of JSON values (spelled out so all recursions are structural). -/
inductive JArr where
  | nil : JArr
  | cons (head : JVal) (tail : JArr) : JArr

/-- Object fields in insertion order, as JavaScript objects preserve for
string keys and JSON.stringify serializes. -/
inductive JObj where
  | nil : JObj
  | cons (key : String) (value : JVal) (tail : JObj) : JObj

end

/-- Builds a JSON array from a Lean list. -/
def JArr.ofList : List JVal → JArr
  | [] => .nil
  | v :: rest => .cons v (JArr.ofList rest)

/-- Builds a JSON object from an ordered field list. -/
def JObj.ofList : List (String × JVal) → JObj
  | [] => .nil
  | (k, v) :: rest => .cons k v (JObj.ofList rest)

/-- Hexadecimal rendering padded to four digits, for JSON u-escapes. -/
def hex4 (n : Nat) : String :=
  let ds := Nat.toDigits 16 n
  String.mk (List.replicate (4 - ds.length) '0' ++ ds)

/-- JSON escaping of one character, as JSON.stringify performs. -/
def jsonEscapeChar (c : Char) : String :=
  if c = '"' then "\\\""
  else if c = '\\' then "\\\\"
  else if c = '\n' then "\\n"
  else if c = '\r' then "\\r"
  else if c = '\t' then "\\t"
  else if c = Char.ofNat 8 then "\\b"
  else if c = Char.ofNat 12 then "\\f"
  else if c.toNat < 32 then "\\u" ++ hex4 c.toNat
  else String.mk [c]

/-- JSON string literal rendering. -/
def jsonQuote (s : String) : String :=
  "\"" ++ (s.toList.map jsonEscapeChar).foldr (· ++ ·) "" ++ "\""

mutual

/-- Renders a JSON value the way JSON.stringify does with no spacing
argument: no whitespace, fields in insertion order. -/
def renderJVal : JVal → String
  | .null => "null"
  | .bool b => if b then "true" else "false"
  | .num n => toString n
  | .str s => jsonQuote s
  | .arr items => "[" ++ renderJArr items ++ "]"
  | .obj fields => "\x7b" ++ renderJObj fields ++ "\x7d"

/-- Renders array items joined by commas. -/
def renderJArr : JArr → String
  | .nil => ""
  | .cons v tl =>
    match tl with
    | .nil => renderJVal v
    | .cons _ _ => renderJVal v ++ "," ++ renderJArr tl

/-- Renders object fields joined by commas. -/
def renderJObj : JObj → String
  | .nil => ""
  | .cons k v tl =>
    match tl with
    | .nil => jsonQuote k ++ ":" ++ renderJVal v
    | .cons _ _ _ => jsonQuote k ++ ":" ++ renderJVal v ++ "," ++ renderJObj tl

end

mutual

/-- The replacer of stringifyForPrompt from src/internal/prompt.ts: undefined
(none) is dropped, and null is also mapped to undefined when dropNull is
set.  Dropping happens per JSON.stringify semantics: omitted in objects,
serialized as null in arrays. -/
def pruneJVal (dropNull : Bool) : JVal → Option JVal
  | .null => if dropNull then none else some .null
  | .arr items => some (.arr (pruneJArr dropNull items))
  | .obj fields => some (.obj (pruneJObj dropNull fields))
  | .bool b => some (.bool b)
  | .num n => some (.num n)
  | .str s => some (.str s)

/-- Array elements for which the replacer returns undefined serialize as null. -/
def pruneJArr (dropNull : Bool) : JArr → JArr
  | .nil => .nil
  | .cons v tl => .cons ((pruneJVal dropNull v).getD .null) (pruneJArr dropNull tl)

/-- Object fields for which the replacer returns undefined are omitted. -/
def pruneJObj (dropNull : Bool) : JObj → JObj
  | .nil => .nil
  | .cons k v tl =>
    match pruneJVal dropNull v with
    | some w => .cons k w (pruneJObj dropNull tl)
    | none => pruneJObj dropNull tl

end

/-- Embedding of stringifyForPrompt from src/internal/prompt.ts:
JSON.stringify with the undefined/null-dropping replacer.  A root value
replaced away yields the JavaScript value undefined, which prints as
the text undefined if interpolated (unreachable at every call site). -/
def stringifyForPrompt (value : JVal) (dropNull : Bool) : String :=
  match pruneJVal dropNull value with
  | some w => renderJVal w
  | none => "undefined"

/-! ### Schema data model (schema.ts) -/

/-- SourceLocation from schema.ts; the confidence and origin enums are
strings at runtime. -/
structure SourceLocation where
  fileName : String
  lineNumber : Option Int
  columnNumber : Option Int
  confidence : String
  origin : String
deriving DecidableEq, Repr

/-- ComponentFlags from schema.ts. -/
structure ComponentFlags where
  isHost : Bool
  isComposite : Bool
  isSuspenseBoundary : Option Bool
  isErrorBoundary : Option Bool
  isServerComponent : Option Bool
  isLayoutLike : Option Bool
deriving DecidableEq, Repr

/-- ReactComponentFrame from schema.ts. -/
structure ReactComponentFrame where
  displayName : Option String
  isHost : Bool
  source : Option SourceLocation
  flags : ComponentFlags
deriving DecidableEq, Repr

/-- PropHighlight from schema.ts; value is a serializable value or null. -/
structure PropHighlight where
  name : String
  value : Option JVal
  reason : String

/-- PropsSnapshot from schema.ts. -/
structure PropsSnapshot where
  totalProps : Int
  highlighted : List PropHighlight

/-- StateSnapshotEntry from schema.ts. -/
structure StateSnapshotEntry where
  hookIndex : Int
  value : Option JVal

/-- StateSnapshot from schema.ts. -/
structure StateSnapshot where
  totalHooks : Int
  entries : List StateSnapshotEntry

/-- ContextEntry from schema.ts. -/
structure ContextEntry where
  index : Int
  value : Option JVal

/-- ContextSnapshot from schema.ts. -/
structure ContextSnapshot where
  totalContexts : Int
  entries : List ContextEntry

/-- ReactTreeSlice from schema.ts. -/
structure ReactTreeSlice where
  stack : List ReactComponentFrame
  ownerIndex : Option Int
  ownerProps : Option PropsSnapshot
  ownerState : Option StateSnapshot
  ownerContexts : Option ContextSnapshot

/-- BoundingBox from schema.ts (coordinates are integral in this model;
the serializer rounds them anyway). -/
structure BoundingBox where
  x : Int
  y : Int
  width : Int
  height : Int
deriving DecidableEq, Repr

/-- SelectionIdentity from schema.ts. -/
structure SelectionIdentity where
  tag : String
  id : Option String
  dataTestId : Option String
  role : Option String
  classes : List String
deriving DecidableEq, Repr

/-- SelectionInfo from schema.ts. -/
structure SelectionInfo where
  tag : String
  boundingBox : BoundingBox
  identity : SelectionIdentity
  componentDisplayName : Option String
  nearestSource : Option SourceLocation
  isLikelyServerComponent : Option Bool
deriving DecidableEq, Repr

/-- DomNodeSummary from schema.ts. -/
structure DomNodeSummary where
  tag : String
  id : Option String
  dataTestId : Option String
  classes : List String
  textSnippet : Option String
deriving DecidableEq, Repr

/-- SiblingSummary from schema.ts. -/
structure SiblingSummary where
  index : Int
  total : Int
  previous : Option DomNodeSummary
  next : Option DomNodeSummary
deriving DecidableEq, Repr

/-- ChildSummary from schema.ts; tagCounts is a histogram object whose keys
appear in insertion order. -/
structure ChildSummary where
  totalChildren : Int
  tagCounts : List (String × Int)
  samples : List DomNodeSummary
deriving DecidableEq, Repr

/-- Selector pair from DomNeighborhood in schema.ts. -/
structure DomSelectors where
  preferred : String
  all : List String
deriving DecidableEq, Repr

/-- DomNeighborhood from schema.ts. -/
structure DomNeighborhood where
  snippet : String
  parents : List DomNodeSummary
  siblings : SiblingSummary
  children : ChildSummary
  selectors : DomSelectors
deriving DecidableEq, Repr

/-- One named group of the StyleFrame; the code stores nullable CSS strings. -/
structure StyleLayout where
  display : Option String
  position : Option String
  flexDirection : Option String
  justifyContent : Option String
  alignItems : Option String
  gap : Option String
  gridTemplateColumns : Option String
  gridTemplateRows : Option String
deriving DecidableEq, Repr

/-- Spacing group of the StyleFrame. -/
structure StyleSpacing where
  margin : Option String
  padding : Option String
deriving DecidableEq, Repr

/-- Size group of the StyleFrame. -/
structure StyleSize where
  width : Option String
  height : Option String
deriving DecidableEq, Repr

/-- Typography group of the StyleFrame. -/
structure StyleTypography where
  fontFamily : Option String
  fontSize : Option String
  fontWeight : Option String
  lineHeight : Option String
deriving DecidableEq, Repr

/-- Colors group of the StyleFrame. -/
structure StyleColors where
  color : Option String
  backgroundColor : Option String
  borderColor : Option String
deriving DecidableEq, Repr

/-- StyleFrame from schema.ts; ruleSummaries is reserved and left empty by
the implementation, so it is modelled as the list of its selector strings. -/
structure StyleFrame where
  layout : StyleLayout
  spacing : StyleSpacing
  size : StyleSize
  typography : StyleTypography
  colors : StyleColors
  clickable : Bool
  ruleSummaries : List String
deriving DecidableEq, Repr

/-- EventHandlerInfo from schema.ts. -/
structure EventHandlerInfo where
  propName : String
  inferredKind : String
  functionName : Option String
  declaredOnComponent : Option String
  source : Option SourceLocation
  comment : Option String
  inferenceSource : String
deriving DecidableEq, Repr

/-- BehaviorContext from schema.ts. -/
structure BehaviorContext where
  inferenceLevel : String
  handlers : List EventHandlerInfo
deriving DecidableEq, Repr

/-- DataSourceHint from schema.ts. -/
structure DataSourceHint where
  kind : String
  identifier : Option String
  description : Option String
deriving DecidableEq, Repr

/-- FrameworkDetectionResult from schema.ts; routeParamsGuess is a string
map whose keys appear in insertion order. -/
structure FrameworkDetectionResult where
  framework : String
  routePatternGuess : Option String
  routeParamsGuess : Option (List (String × String))
  pageComponent : Option SourceLocation
  layoutComponents : List SourceLocation
deriving DecidableEq, Repr

/-- AppContext from schema.ts. -/
structure AppContext where
  url : String
  pathname : String
  search : String
  hash : String
  framework : String
  routePatternGuess : Option String
  routeParamsGuess : Option (List (String × String))
  pageComponent : Option SourceLocation
  layoutComponents : List SourceLocation
  dataSources : List DataSourceHint
deriving DecidableEq, Repr

/-- TestHint from schema.ts. -/
structure TestHint where
  type : String
  location : SourceLocation
  description : Option String
deriving DecidableEq, Repr

/-- TestsBlock from schema.ts. -/
structure TestsBlock where
  hints : List TestHint
deriving DecidableEq, Repr

/-- ReactDebugInfo from schema.ts. -/
structure ReactDebugInfo where
  buildType : String
  inspectorStatus : String
  message : Option String
deriving DecidableEq, Repr

/-- ElementContextV2 from schema.ts; the version field is the literal 2.
tests is an optional field: none models the absent (undefined) key. -/
structure ElementContextV2 where
  selection : SelectionInfo
  dom : DomNeighborhood
  react : Option ReactTreeSlice
  reactDebug : ReactDebugInfo
  styling : StyleFrame
  behavior : BehaviorContext
  app : AppContext
  tests : Option TestsBlock

/-- GrabrSession from schema.ts. -/
structure GrabrSession where
  id : String
  createdAt : String
  url : String
  userInstruction : Option String
  summary : Option String
  elements : List ElementContextV2

/-! ### Framework detection strategy (heuristics.ts) -/

/-- FrameworkDetectionInput from schema.ts. -/
structure FrameworkDetectionInput where
  reactSlice : Option ReactTreeSlice
  url : String
  pathname : String

/-- Embedding of inferFrameworkFromPath from src/internal/heuristics.ts. -/
def inferFrameworkFromPath (path : String) : String :=
  if strContains path "/app/" then "next-app"
  else if strContains path "/pages/" then "next-pages"
  else if strContains path "react-router" then "react-router"
  else if strContains path "remix" then "remix"
  else "unknown"

/-- Embedding of isLayoutLikeFromPath from src/internal/heuristics.ts. -/
def isLayoutLikeFromPath (path : String) : Bool :=
  strEndsWith path "/layout.tsx" || strEndsWith path "/layout.jsx" ||
  strEndsWith path "/_layout.tsx" || strEndsWith path "/_layout.jsx"

/-- Embedding of isPageLikeFromPath from src/internal/heuristics.ts. -/
def isPageLikeFromPath (path : String) : Bool :=
  strEndsWith path "/page.tsx" || strEndsWith path "/page.jsx" ||
  strEndsWith path "/index.tsx" || strEndsWith path "/index.jsx"

/-- The numeric-segment test of nextLikeFrameworkStrategy is the regex
literal written /^\\d+$/, whose doubled backslash makes it match one
literal backslash character followed by one or more letters d — it never
matches a decimal digit string. -/
def matchesBackslashDRun (seg : String) : Bool :=
  match seg.toList with
  | '\\' :: rest => !rest.isEmpty && rest.all (fun c => c = 'd')
  | _ => false

/-- Embedding of the route-pattern reconstruction closure inside
nextLikeFrameworkStrategy.detect: split the pathname on /, drop empty
segments, then per segment (with its index) emit either the [idN]
placeholder (recording the value), the segment verbatim (length > 2 and
equal to its own lower-casing), or the [paramN] placeholder (recording
the value). -/
def guessRoutePattern (pathname : String) : String × List (String × String) :=
  let segments := (strSplit pathname '/').filter (fun s => 0 < s.length)
  let step := fun (acc : List String × List (String × String)) (p : Nat × String) =>
    if matchesBackslashDRun p.2 then
      (acc.1 ++ ["[id" ++ toString p.1 ++ "]"], acc.2 ++ [("id" ++ toString p.1, p.2)])
    else if 2 < p.2.length ∧ p.2 = lowerStr p.2 then
      (acc.1 ++ [p.2], acc.2)
    else
      (acc.1 ++ ["[param" ++ toString p.1 ++ "]"],
       acc.2 ++ [("param" ++ toString p.1, p.2)])
  let r := segments.enum.foldl step ([], [])
  ("/" ++ joinWith "/" r.1, r.2)

/-- Embedding of nextLikeFrameworkStrategy.detect from
src/internal/heuristics.ts: walk the component stack accumulating the
first framework guess, layout-like sources, and the first page-like
source; defer (return null) when nothing was recognized; reconstruct a
route pattern only for the two path-based framework tags. -/
def nextLikeStrategyDetect (input : FrameworkDetectionInput) :
    Option FrameworkDetectionResult :=
  match input.reactSlice with
  | none => none
  | some slice =>
    let step := fun (acc : String × List SourceLocation × Option SourceLocation)
        (frame : ReactComponentFrame) =>
      match frame.source with
      | none => acc
      | some source =>
        let path := source.fileName
        let fw := if acc.1 = "unknown" then inferFrameworkFromPath path else acc.1
        let layouts := if isLayoutLikeFromPath path then acc.2.1 ++ [source] else acc.2.1
        let page := if acc.2.2 = none ∧ isPageLikeFromPath path then some source else acc.2.2
        (fw, layouts, page)
    let r := slice.stack.foldl step ("unknown", [], none)
    let framework := r.1
    let layoutComponents := r.2.1
    let pageComponent := r.2.2
    if framework = "unknown" ∧ pageComponent = none ∧ layoutComponents = [] then none
    else
      let route := if framework = "next-app" ∨ framework = "next-pages"
        then some (guessRoutePattern input.pathname) else none
      some {
        framework := framework
        routePatternGuess := route.map (fun q => q.1)
        routeParamsGuess :=
          match route with
          | some (_, params) => if params = [] then none else some params
          | none => none
        pageComponent := pageComponent
        layoutComponents := layoutComponents }

/-! ### Data-source detection strategy (heuristics.ts) -/

/-- The synthesized hint used when no data-source strategy fires. -/
def unknownDataSourceHint : DataSourceHint :=
  { kind := "unknown", identifier := none, description := none }

/-- The lower-cased owner prop names basicDataSourceStrategy.detect starts
from: input.ownerProps?.highlighted.map(h => h.name.toLowerCase()) ?? []. -/
def lowerPropNames (ownerProps : Option PropsSnapshot) : List String :=
  match ownerProps with
  | some p => p.highlighted.map (fun h => lowerStr h.name)
  | none => []

/-- Embedding of basicDataSourceStrategy.detect from
src/internal/heuristics.ts over the owner's highlighted prop names:
lower-case the names, then flag react-query on the data/loading/error
triple, swr on any name containing that substring, redux on any name
containing selector, and fall back to a single unknown hint. -/
def basicDataSourceDetect (ownerProps : Option PropsSnapshot) : List DataSourceHint :=
  let lowerNames := lowerPropNames ownerProps
  let hasData := lowerNames.contains "data"
  let hasIsLoading := lowerNames.contains "isloading" || lowerNames.contains "loading"
  let hasError := lowerNames.contains "error"
  let hints :=
    (if hasData && hasIsLoading && hasError then
      [{ kind := "react-query", identifier := none,
         description := some "Props suggest React Query-like async data (data/loading/error)." }]
     else []) ++
    (if lowerNames.any (fun p => strContains p "swr") then
      [{ kind := "swr", identifier := none,
         description := some "Props mention SWR, likely SWR-based data." }]
     else []) ++
    (if lowerNames.any (fun p => strContains p "selector") then
      [{ kind := "redux", identifier := none,
         description := some "Selector-like props hint at Redux selectors." }]
     else [])
  if hints = [] then [unknownDataSourceHint] else hints

/-- Embedding of the dataSources aggregation inside buildAppContext from
src/internal/heuristics.ts: concatenate the hints of every configured
data-source strategy; if the collection is empty, synthesize a single
unknown hint. -/
def buildAppContextDataSources
    (strategies : List (Option PropsSnapshot → List DataSourceHint))
    (ownerProps : Option PropsSnapshot) : List DataSourceHint :=
  let collected := (strategies.map (fun st => st ownerProps)).flatten
  if collected = [] then [unknownDataSourceHint] else collected

/-! ### JSON encoding of the data model

The encoders below spell out the JavaScript objects exactly as the source
constructs them (field insertion order matters for JSON.stringify).
-/

/-- Encodes a nullable string. -/
def jOptStr : Option String → JVal
  | none => .null
  | some s => .str s

/-- Encodes a nullable number. -/
def jOptInt : Option Int → JVal
  | none => .null
  | some n => .num n

/-- Encodes a nullable boolean. -/
def jOptBool : Option Bool → JVal
  | none => .null
  | some b => .bool b

/-- Encodes a nullable serializable value. -/
def jOptVal : Option JVal → JVal
  | none => .null
  | some v => v

/-- Encodes a string array. -/
def jStrArr (l : List String) : JVal :=
  .arr (JArr.ofList (l.map JVal.str))

/-- Builds an object value from an ordered field list. -/
def jObjOf (l : List (String × JVal)) : JVal :=
  .obj (JObj.ofList l)

/-- Builds an array value from a list. -/
def jArrOf (l : List JVal) : JVal :=
  .arr (JArr.ofList l)

/-- Encodes a SourceLocation (construction order of toSourceLocation). -/
def encodeSourceLocation (s : SourceLocation) : JVal :=
  jObjOf [("fileName", .str s.fileName), ("lineNumber", jOptInt s.lineNumber),
    ("columnNumber", jOptInt s.columnNumber), ("confidence", .str s.confidence),
    ("origin", .str s.origin)]

/-- Encodes ComponentFlags (construction order in buildReactTreeSlice). -/
def encodeComponentFlags (f : ComponentFlags) : JVal :=
  jObjOf [("isHost", .bool f.isHost), ("isComposite", .bool f.isComposite),
    ("isSuspenseBoundary", jOptBool f.isSuspenseBoundary),
    ("isErrorBoundary", jOptBool f.isErrorBoundary),
    ("isServerComponent", jOptBool f.isServerComponent),
    ("isLayoutLike", jOptBool f.isLayoutLike)]

/-- Encodes a ReactComponentFrame. -/
def encodeReactComponentFrame (f : ReactComponentFrame) : JVal :=
  jObjOf [("displayName", jOptStr f.displayName), ("isHost", .bool f.isHost),
    ("source", match f.source with | some s => encodeSourceLocation s | none => .null),
    ("flags", encodeComponentFlags f.flags)]

/-- Encodes a PropHighlight (construction order in snapshotProps). -/
def encodePropHighlight (h : PropHighlight) : JVal :=
  jObjOf [("name", .str h.name), ("value", jOptVal h.value), ("reason", .str h.reason)]

/-- Encodes a PropsSnapshot. -/
def encodePropsSnapshot (p : PropsSnapshot) : JVal :=
  jObjOf [("totalProps", .num p.totalProps),
    ("highlighted", jArrOf (p.highlighted.map encodePropHighlight))]

/-- Encodes a StateSnapshotEntry. -/
def encodeStateSnapshotEntry (e : StateSnapshotEntry) : JVal :=
  jObjOf [("hookIndex", .num e.hookIndex), ("value", jOptVal e.value)]

/-- Encodes a StateSnapshot. -/
def encodeStateSnapshot (p : StateSnapshot) : JVal :=
  jObjOf [("totalHooks", .num p.totalHooks),
    ("entries", jArrOf (p.entries.map encodeStateSnapshotEntry))]

/-- Encodes a ContextEntry. -/
def encodeContextEntry (e : ContextEntry) : JVal :=
  jObjOf [("index", .num e.index), ("value", jOptVal e.value)]

/-- Encodes a ContextSnapshot. -/
def encodeContextSnapshot (p : ContextSnapshot) : JVal :=
  jObjOf [("totalContexts", .num p.totalContexts),
    ("entries", jArrOf (p.entries.map encodeContextEntry))]

/-- Encodes a ReactTreeSlice (construction order in buildReactTreeSlice). -/
def encodeReactTreeSlice (r : ReactTreeSlice) : JVal :=
  jObjOf [("stack", jArrOf (r.stack.map encodeReactComponentFrame)),
    ("ownerIndex", jOptInt r.ownerIndex),
    ("ownerProps", match r.ownerProps with | some p => encodePropsSnapshot p | none => .null),
    ("ownerState", match r.ownerState with | some p => encodeStateSnapshot p | none => .null),
    ("ownerContexts", match r.ownerContexts with | some p => encodeContextSnapshot p | none => .null)]

/-- Encodes the bounding box (construction order in buildSelectionInfo). -/
def encodeBoundingBox (b : BoundingBox) : JVal :=
  jObjOf [("x", .num b.x), ("y", .num b.y), ("width", .num b.width), ("height", .num b.height)]

/-- Encodes a SelectionIdentity. -/
def encodeSelectionIdentity (i : SelectionIdentity) : JVal :=
  jObjOf [("tag", .str i.tag), ("id", jOptStr i.id), ("dataTestId", jOptStr i.dataTestId),
    ("role", jOptStr i.role), ("classes", jStrArr i.classes)]

/-- Encodes a SelectionInfo (construction order in buildSelectionInfo). -/
def encodeSelectionInfo (s : SelectionInfo) : JVal :=
  jObjOf [("tag", .str s.tag), ("boundingBox", encodeBoundingBox s.boundingBox),
    ("identity", encodeSelectionIdentity s.identity),
    ("componentDisplayName", jOptStr s.componentDisplayName),
    ("nearestSource", match s.nearestSource with | some l => encodeSourceLocation l | none => .null),
    ("isLikelyServerComponent", jOptBool s.isLikelyServerComponent)]

/-- Encodes a DomNodeSummary (construction order in summarizeDomNode). -/
def encodeDomNodeSummary (d : DomNodeSummary) : JVal :=
  jObjOf [("tag", .str d.tag), ("id", jOptStr d.id), ("dataTestId", jOptStr d.dataTestId),
    ("classes", jStrArr d.classes), ("textSnippet", jOptStr d.textSnippet)]

/-- Encodes a SiblingSummary. -/
def encodeSiblingSummary (s : SiblingSummary) : JVal :=
  jObjOf [("index", .num s.index), ("total", .num s.total),
    ("previous", match s.previous with | some d => encodeDomNodeSummary d | none => .null),
    ("next", match s.next with | some d => encodeDomNodeSummary d | none => .null)]

/-- Encodes a ChildSummary; tagCounts is the histogram object. -/
def encodeChildSummary (c : ChildSummary) : JVal :=
  jObjOf [("totalChildren", .num c.totalChildren),
    ("tagCounts", jObjOf (c.tagCounts.map (fun p => (p.1, JVal.num p.2)))),
    ("samples", jArrOf (c.samples.map encodeDomNodeSummary))]

/-- Encodes the selectors record of a DomNeighborhood. -/
def encodeDomSelectors (s : DomSelectors) : JVal :=
  jObjOf [("preferred", .str s.preferred), ("all", jStrArr s.all)]

/-- Encodes a DomNeighborhood (construction order in buildDomNeighborhood). -/
def encodeDomNeighborhood (d : DomNeighborhood) : JVal :=
  jObjOf [("snippet", .str d.snippet), ("parents", jArrOf (d.parents.map encodeDomNodeSummary)),
    ("siblings", encodeSiblingSummary d.siblings), ("children", encodeChildSummary d.children),
    ("selectors", encodeDomSelectors d.selectors)]

/-- Encodes the layout group of a StyleFrame. -/
def encodeStyleLayout (l : StyleLayout) : JVal :=
  jObjOf [("display", jOptStr l.display), ("position", jOptStr l.position),
    ("flexDirection", jOptStr l.flexDirection), ("justifyContent", jOptStr l.justifyContent),
    ("alignItems", jOptStr l.alignItems), ("gap", jOptStr l.gap),
    ("gridTemplateColumns", jOptStr l.gridTemplateColumns),
    ("gridTemplateRows", jOptStr l.gridTemplateRows)]

/-- Encodes the spacing group of a StyleFrame. -/
def encodeStyleSpacing (s : StyleSpacing) : JVal :=
  jObjOf [("margin", jOptStr s.margin), ("padding", jOptStr s.padding)]

/-- Encodes the size group of a StyleFrame. -/
def encodeStyleSize (s : StyleSize) : JVal :=
  jObjOf [("width", jOptStr s.width), ("height", jOptStr s.height)]

/-- Encodes the typography group of a StyleFrame. -/
def encodeStyleTypography (t : StyleTypography) : JVal :=
  jObjOf [("fontFamily", jOptStr t.fontFamily), ("fontSize", jOptStr t.fontSize),
    ("fontWeight", jOptStr t.fontWeight), ("lineHeight", jOptStr t.lineHeight)]

/-- Encodes the colors group of a StyleFrame. -/
def encodeStyleColors (c : StyleColors) : JVal :=
  jObjOf [("color", jOptStr c.color), ("backgroundColor", jOptStr c.backgroundColor),
    ("borderColor", jOptStr c.borderColor)]

/-- Encodes a StyleFrame (construction order in buildStyleFrame). -/
def encodeStyleFrame (f : StyleFrame) : JVal :=
  jObjOf [("layout", encodeStyleLayout f.layout), ("spacing", encodeStyleSpacing f.spacing),
    ("size", encodeStyleSize f.size), ("typography", encodeStyleTypography f.typography),
    ("colors", encodeStyleColors f.colors), ("clickable", .bool f.clickable),
    ("ruleSummaries", jStrArr f.ruleSummaries)]

/-- Encodes an EventHandlerInfo (construction order in buildBehaviorContext). -/
def encodeEventHandlerInfo (h : EventHandlerInfo) : JVal :=
  jObjOf [("propName", .str h.propName), ("inferredKind", .str h.inferredKind),
    ("functionName", jOptStr h.functionName),
    ("declaredOnComponent", jOptStr h.declaredOnComponent),
    ("source", match h.source with | some s => encodeSourceLocation s | none => .null),
    ("comment", jOptStr h.comment), ("inferenceSource", .str h.inferenceSource)]

/-- Encodes a BehaviorContext. -/
def encodeBehaviorContext (b : BehaviorContext) : JVal :=
  jObjOf [("inferenceLevel", .str b.inferenceLevel),
    ("handlers", jArrOf (b.handlers.map encodeEventHandlerInfo))]

/-- Encodes a DataSourceHint. -/
def encodeDataSourceHint (h : DataSourceHint) : JVal :=
  jObjOf [("kind", .str h.kind), ("identifier", jOptStr h.identifier),
    ("description", jOptStr h.description)]

/-- Encodes an AppContext (construction order in buildAppContext). -/
def encodeAppContext (a : AppContext) : JVal :=
  jObjOf [("url", .str a.url), ("pathname", .str a.pathname), ("search", .str a.search),
    ("hash", .str a.hash), ("framework", .str a.framework),
    ("routePatternGuess", jOptStr a.routePatternGuess),
    ("routeParamsGuess",
      match a.routeParamsGuess with
      | some params => jObjOf (params.map (fun p => (p.1, JVal.str p.2)))
      | none => .null),
    ("pageComponent", match a.pageComponent with | some l => encodeSourceLocation l | none => .null),
    ("layoutComponents", jArrOf (a.layoutComponents.map encodeSourceLocation)),
    ("dataSources", jArrOf (a.dataSources.map encodeDataSourceHint))]

/-- Encodes a TestHint. -/
def encodeTestHint (t : TestHint) : JVal :=
  jObjOf [("type", .str t.type), ("location", encodeSourceLocation t.location),
    ("description", jOptStr t.description)]

/-- Encodes a TestsBlock. -/
def encodeTestsBlock (t : TestsBlock) : JVal :=
  jObjOf [("hints", jArrOf (t.hints.map encodeTestHint))]

/-- Encodes a ReactDebugInfo (construction order in getReactDebugInfoForElement). -/
def encodeReactDebugInfo (r : ReactDebugInfo) : JVal :=
  jObjOf [("buildType", .str r.buildType), ("inspectorStatus", .str r.inspectorStatus),
    ("message", jOptStr r.message)]

/-- Encodes an ElementContextV2 with the field order of the object literal in
DefaultInspectorEngine.getElementContext; the optional tests key is
present only when set. -/
def encodeElementContextV2 (c : ElementContextV2) : JVal :=
  let base := [("version", JVal.num 2), ("selection", encodeSelectionInfo c.selection),
    ("dom", encodeDomNeighborhood c.dom),
    ("react", match c.react with | some r => encodeReactTreeSlice r | none => JVal.null),
    ("reactDebug", encodeReactDebugInfo c.reactDebug),
    ("styling", encodeStyleFrame c.styling),
    ("behavior", encodeBehaviorContext c.behavior),
    ("app", encodeAppContext c.app)]
  jObjOf (match c.tests with
    | some t => base ++ [("tests", encodeTestsBlock t)]
    | none => base)

/-- Encodes a GrabrSession with the field order of the object literal in
GrabrController.finalizeSelection. -/
def encodeGrabrSession (s : GrabrSession) : JVal :=
  jObjOf [("id", .str s.id), ("createdAt", .str s.createdAt), ("url", .str s.url),
    ("userInstruction", jOptStr s.userInstruction), ("summary", jOptStr s.summary),
    ("elements", jArrOf (s.elements.map encodeElementContextV2))]

/-! ### Prompt rendering (prompt.ts) -/

/-- Embedding of maybeAddLine from src/internal/prompt.ts.  The source's
option defaults are dropNull = true and allowEmpty = false; every call
below passes them explicitly. -/
def maybeAddLine (lines : List String) (key : String) (value : JVal)
    (dropNull : Bool) (allowEmpty : Bool) : List String :=
  match value, dropNull with
  | .null, true => lines
  | _, _ =>
    let serialized := stringifyForPrompt value dropNull
    if ¬ allowEmpty ∧ (serialized = "\x7b\x7d" ∨ serialized = "[]") then lines
    else lines ++ [key ++ "=" ++ serialized]

/-- Embedding of formatSourceForPrompt from src/internal/prompt.ts; returns
null for a missing source, else an object with file/confidence/origin and
conditional line/col keys. -/
def formatSourceForPrompt (source : Option SourceLocation) : JVal :=
  match source with
  | none => .null
  | some s =>
    let base := [("file", JVal.str s.fileName), ("confidence", JVal.str s.confidence),
      ("origin", JVal.str s.origin)]
    let withLine := match s.lineNumber with
      | some l => base ++ [("line", JVal.num l)]
      | none => base
    let withCol := match s.columnNumber with
      | some c => withLine ++ [("col", JVal.num c)]
      | none => withLine
    jObjOf withCol

/-- Embedding of deriveSelectionId from src/internal/prompt.ts: the id is a
checksum of identity fields joined with a bar, never of the content
checksum. -/
def deriveSelectionId (context : ElementContextV2) : String :=
  let s := context.selection
  let parts := [s.identity.id.getD "", s.identity.dataTestId.getD "", s.tag,
    s.componentDisplayName.getD "",
    (s.nearestSource.map (fun l => l.fileName)).getD "",
    toString s.boundingBox.x, toString s.boundingBox.y]
  "sel_" ++ promptChecksum (joinWith "|" parts)

/-- Embedding of formatReactStack from src/internal/prompt.ts. -/
def formatReactStack (react : ReactTreeSlice) : JVal :=
  jArrOf (react.stack.enum.map (fun p =>
    let base := [("idx", JVal.num (p.1 : Int)),
      ("displayName", JVal.str (p.2.displayName.getD "<host>")),
      ("isHost", JVal.bool p.2.isHost),
      ("source", formatSourceForPrompt p.2.source),
      ("flags", encodeComponentFlags p.2.flags)]
    jObjOf (if react.ownerIndex = some (p.1 : Int)
      then base ++ [("owner", JVal.bool true)] else base)))

/-- Embedding of formatPropsSnapshot from src/internal/prompt.ts. -/
def formatPropsSnapshot (snapshot : Option PropsSnapshot) : JVal :=
  match snapshot with
  | none => .null
  | some p =>
    jObjOf [("total", .num p.totalProps),
      ("highlighted", jArrOf (p.highlighted.map (fun h =>
        jObjOf [("name", .str h.name), ("reason", .str h.reason), ("value", jOptVal h.value)])))]

/-- Embedding of formatStateSnapshot from src/internal/prompt.ts. -/
def formatStateSnapshot (snapshot : Option StateSnapshot) : JVal :=
  match snapshot with
  | none => .null
  | some p =>
    jObjOf [("total", .num p.totalHooks),
      ("entries", jArrOf (p.entries.map encodeStateSnapshotEntry))]

/-- Embedding of formatContextSnapshot from src/internal/prompt.ts. -/
def formatContextSnapshot (snapshot : Option ContextSnapshot) : JVal :=
  match snapshot with
  | none => .null
  | some p =>
    jObjOf [("total", .num p.totalContexts),
      ("entries", jArrOf (p.entries.map encodeContextEntry))]

/-- Embedding of formatBehaviorHandlers from src/internal/prompt.ts. -/
def formatBehaviorHandlers (handlers : List EventHandlerInfo) : JVal :=
  jArrOf (handlers.map (fun h =>
    jObjOf [("prop", .str h.propName), ("kind", .str h.inferredKind),
      ("fn", .str (h.functionName.getD "anonymous")),
      ("component", .str (h.declaredOnComponent.getD "unknown")),
      ("source", formatSourceForPrompt h.source),
      ("inference", .str h.inferenceSource)]))

/-- Wraps the lines of one logical group in its section markers. -/
def sectionWrap (name : String) (inner : List String) : List String :=
  ["[section:" ++ name ++ "]"] ++ inner ++ ["[end:" ++ name ++ "]"]

/-- The content checksum of one element context: promptChecksum of the
canonical JSON encoding with nulls retained (dropNull = false),
undefined-valued fields omitted. -/
def contextChecksum (context : ElementContextV2) : String :=
  promptChecksum (stringifyForPrompt (encodeElementContextV2 context) false)

/-- Embedding of renderElementContextPrompt from src/internal/prompt.ts.
The source's fallback for a missing reactDebug value is dead code (the
schema field is mandatory and the inspector always sets it), so the model
reads the field directly. -/
def renderElementContextPrompt (context : ElementContextV2) : String :=
  let selectionId := deriveSelectionId context
  let checksum := contextChecksum context
  let s := context.selection
  let dom := context.dom
  let react := context.react
  let style := context.styling
  let app := context.app
  let reactDebug := context.reactDebug
  let metaLines :=
    maybeAddLine (maybeAddLine (maybeAddLine (maybeAddLine (maybeAddLine (maybeAddLine
      (maybeAddLine (maybeAddLine (maybeAddLine [] "version" (.num 2) false false)
        "sel_id" (.str selectionId) false false)
        "checksum" (.str checksum) false false)
        "react_available" (.bool react.isSome) true false)
        "react_inspector_status" (.str reactDebug.inspectorStatus) true false)
        "react_build" (.str reactDebug.buildType) true false)
        "react_message" (jOptStr reactDebug.message) true false)
        "source_hint_present" (.bool s.nearestSource.isSome) true false)
        "tests_present"
        (.bool (match context.tests with | some t => !t.hints.isEmpty | none => false))
        true false
  let selectionLines :=
    maybeAddLine (maybeAddLine (maybeAddLine (maybeAddLine (maybeAddLine (maybeAddLine []
      "tag" (.str s.tag) false false)
      "bounding_box"
      (jObjOf [("x", .num s.boundingBox.x), ("y", .num s.boundingBox.y),
        ("w", .num s.boundingBox.width), ("h", .num s.boundingBox.height)]) false false)
      "identity"
      (jObjOf [("id", jOptStr s.identity.id), ("dataTestId", jOptStr s.identity.dataTestId),
        ("role", jOptStr s.identity.role), ("classes", jStrArr s.identity.classes)]) false false)
      "component" (jOptStr s.componentDisplayName) true false)
      "nearest_source" (formatSourceForPrompt s.nearestSource) true false)
      "is_server_component" (jOptBool s.isLikelyServerComponent) true false
  let domLines :=
    maybeAddLine (maybeAddLine (maybeAddLine (maybeAddLine (maybeAddLine []
      "snippet" (.str dom.snippet) false false)
      "parents" (jArrOf (dom.parents.map encodeDomNodeSummary)) true false)
      "siblings" (encodeSiblingSummary dom.siblings) true false)
      "children" (encodeChildSummary dom.children) true false)
      "selectors" (encodeDomSelectors dom.selectors) true false
  let reactStatusLines :=
    maybeAddLine [] "status"
      (jObjOf [("available", .bool react.isSome),
        ("inspectorStatus", .str reactDebug.inspectorStatus),
        ("build", .str reactDebug.buildType),
        ("message", jOptStr reactDebug.message)]) true false
  let reactLines :=
    match react with
    | none => reactStatusLines
    | some r =>
      maybeAddLine (maybeAddLine (maybeAddLine (maybeAddLine (maybeAddLine reactStatusLines
        "owner_index" (jOptInt r.ownerIndex) false false)
        "stack" (formatReactStack r) true true)
        "owner_props" (formatPropsSnapshot r.ownerProps) true true)
        "owner_state" (formatStateSnapshot r.ownerState) true true)
        "owner_contexts" (formatContextSnapshot r.ownerContexts) true true
  let stylingLines :=
    maybeAddLine (maybeAddLine (maybeAddLine (maybeAddLine (maybeAddLine (maybeAddLine []
      "layout" (encodeStyleLayout style.layout) true false)
      "spacing" (encodeStyleSpacing style.spacing) true false)
      "size" (encodeStyleSize style.size) true false)
      "typography" (encodeStyleTypography style.typography) true false)
      "colors" (encodeStyleColors style.colors) true false)
      "clickable" (.bool style.clickable) false false
  let behaviorLines :=
    maybeAddLine (maybeAddLine []
      "inference_level" (.str context.behavior.inferenceLevel) false false)
      "handlers" (formatBehaviorHandlers context.behavior.handlers) true true
  let appLines :=
    maybeAddLine (maybeAddLine (maybeAddLine []
      "url"
      (jObjOf [("full", .str app.url), ("pathname", .str app.pathname),
        ("search", .str app.search), ("hash", .str app.hash)]) true false)
      "routing"
      (jObjOf [("framework", .str app.framework),
        ("routePatternGuess", jOptStr app.routePatternGuess),
        ("routeParamsGuess",
          match app.routeParamsGuess with
          | some params => jObjOf (params.map (fun p => (p.1, JVal.str p.2)))
          | none => .null),
        ("pageComponent", formatSourceForPrompt app.pageComponent),
        ("layoutComponents", jArrOf (app.layoutComponents.map (fun l => formatSourceForPrompt (some l))))])
      true true)
      "data_sources" (jArrOf (app.dataSources.map encodeDataSourceHint)) true true
  let testsSections :=
    match context.tests with
    | some t =>
      sectionWrap "tests"
        (maybeAddLine [] "hints" (jArrOf (t.hints.map encodeTestHint)) true true)
    | none => []
  let lines :=
    ["<ai_grab_selection v=\"2\" sel_id=\"" ++ selectionId ++ "\" checksum=\"" ++ checksum ++ "\">"] ++
    sectionWrap "meta" metaLines ++
    sectionWrap "selection" selectionLines ++
    sectionWrap "dom" domLines ++
    sectionWrap "react" reactLines ++
    sectionWrap "styling" stylingLines ++
    sectionWrap "behavior" behaviorLines ++
    sectionWrap "app" appLines ++
    testsSections ++
    ["<ai_grab_selection_end sel_id=\"" ++ selectionId ++ "\" checksum=\"" ++ checksum ++ "\"/>"]
  joinWith "\n" lines

/-- The content checksum of a full session record. -/
def sessionChecksum (session : GrabrSession) : String :=
  promptChecksum (stringifyForPrompt (encodeGrabrSession session) false)

/-- Embedding of renderSessionPrompt from src/internal/prompt.ts. -/
def renderSessionPrompt (session : GrabrSession) : String :=
  let checksum := sessionChecksum session
  let metaLines :=
    maybeAddLine (maybeAddLine (maybeAddLine (maybeAddLine (maybeAddLine []
      "created_at" (.str session.createdAt) false false)
      "url" (.str session.url) false false)
      "instruction" (.str (session.userInstruction.getD "(none)")) false false)
      "summary"
      (.str (session.summary.getD
        ("Session with " ++ toString session.elements.length ++ " elements."))) false false)
      "element_count" (.num (session.elements.length : Int)) false false
  let elementLines :=
    (session.elements.enum.map (fun p =>
      ["[element:" ++ toString p.1 ++ "]"] ++ [renderElementContextPrompt p.2] ++
      ["[end:element:" ++ toString p.1 ++ "]"])).flatten
  let lines :=
    ["<ai_grab_session id=\"" ++ session.id ++ "\" checksum=\"" ++ checksum ++ "\">"] ++
    sectionWrap "meta" metaLines ++
    sectionWrap "elements" elementLines ++
    ["<ai_grab_session_end id=\"" ++ session.id ++ "\" checksum=\"" ++ checksum ++ "\"/>"]
  joinWith "\n" lines

/-! ### Controller finalizeSelection (client module) -/

/-- SelectionFinalizeProgress from the client module; message is only
present on the error phase. -/
structure SelectionFinalizeProgress where
  phase : String
  completed : Nat
  total : Nat
  message : Option String
deriving DecidableEq, Repr

/-- External inputs of one finalize run that the browser supplies:
crypto.randomUUID (or the Math.random fallback), the clock, and the page
URL. -/
structure SessionMeta where
  sessionId : String
  createdAt : String
  url : String

/-- Embedding of GrabrController.finalizeSelection from the client module.

Element references are abstract (decidable reference equality); the
inspector call is getElementContext, whose try/catch wrapper in the
source maps a rejection to null; the active provider's sendContext
outcome is the sendOutcome parameter.  The concurrency-limited build
(limit 2) fires one building-context progress event per completion in
completion order; the model emits them in canonical input order — the
event multiset, the final completed count and every result slot are
schedule-independent (the builder theorem for claim C1 proves the slot
part), and no claim depends on mid-build event order. -/
def GrabrControllerFinalizeSelection {E : Type} [DecidableEq E]
    (isConnected : E → Bool)
    (getElementContext : E → Option ElementContextV2)
    (sendOutcome : Except String Unit)
    (meta : SessionMeta)
    (currentInstruction : Option String)
    (currentSession : Option GrabrSession)
    (elements : List E) :
    List SelectionFinalizeProgress × Option GrabrSession :=
  let connected := (dedupeElementsPreserveOrder elements).filter isConnected
  if connected = [] then
    ([⟨"error", 0, 0, some "No valid elements to capture."⟩], currentSession)
  else
    let total := connected.length
    let ev0 : List SelectionFinalizeProgress := [⟨"building-context", 0, total, none⟩]
    let contextsOrNull := connected.map getElementContext
    let buildEvents := (List.range total).map (fun k =>
      (⟨"building-context", k + 1, total, none⟩ : SelectionFinalizeProgress))
    let failed := (contextsOrNull.filter (fun c => c.isNone)).length
    let contexts := contextsOrNull.filterMap id
    if contexts.isEmpty then
      (ev0 ++ buildEvents ++
        [⟨"error", total, total, some "Failed to capture context for all selected elements."⟩],
       currentSession)
    else
      let summary :=
        if 0 < failed then
          "Session with " ++ toString contexts.length ++ " element(s) captured; " ++
            toString failed ++ " failed."
        else
          "Session with " ++ toString contexts.length ++ " element(s) captured."
      let session : GrabrSession :=
        { id := meta.sessionId, createdAt := meta.createdAt, url := meta.url,
          userInstruction := currentInstruction, summary := some summary,
          elements := contexts }
      match sendOutcome with
      | .ok _ =>
        (ev0 ++ buildEvents ++
          [⟨"sending", total, total, none⟩, ⟨"done", total, total, none⟩],
         some session)
      | .error msg =>
        (ev0 ++ buildEvents ++
          [⟨"sending", total, total, none⟩, ⟨"error", total, total, some msg⟩],
         some session)

/-! ### Selection overlay finalize (client module) -/

/-- The mutable fields of SelectionOverlay that the finalize path touches.
The DOM boxes/panels are tracked by their observable state: the number of
attached selection boxes, and the visible-class booleans of the HUD, its
help block and the hover highlight. -/
structure OverlayState (E : Type) where
  selecting : Bool
  sending : Bool
  helpVisible : Bool
  hovered : Option E
  selected : List E
  selectionBoxCount : Nat
  hudVisible : Bool
  hudHelpVisible : Bool
  highlightVisible : Bool
  listenersAttached : Bool

/-- Embedding of SelectionOverlay.cancelSelection: full reset — clear both
flags and help, drop hovered/selected, detach listeners, clear boxes,
hide highlight, HUD and help. -/
def overlayCancelSelection {E : Type} (_s : OverlayState E) : OverlayState E :=
  { selecting := false, sending := false, helpVisible := false,
    hovered := none, selected := [],
    selectionBoxCount := 0, hudVisible := false, hudHelpVisible := false,
    highlightVisible := false, listenersAttached := false }

/-- Embedding of SelectionOverlay.finalizeSelection from the client module.
Returns whether the run entered the sending state, and the overlay state
after the call settles.  controllerOutcome is the result of the awaited
controller.finalizeSelection call; the underscore-free fields show it is
never consulted by the cleanup, which is the finally clause of the
source. -/
def SelectionOverlayFinalizeSelection {E : Type} [DecidableEq E]
    (isConnected : E → Bool)
    (_controllerOutcome : Except String Unit)
    (s : OverlayState E) : Bool × OverlayState E :=
  let selected :=
    match s.selected, s.hovered with
    | [], some h => [h]
    | sel, _ => sel
  let connected := (dedupeElementsPreserveOrder selected).filter isConnected
  if connected = [] then
    (false, overlayCancelSelection s)
  else
    let duringSend : OverlayState E :=
      { s with
        selected := selected
        sending := true
        listenersAttached := false
        highlightVisible := false }
    let afterFinally : OverlayState E :=
      { duringSend with
        selecting := false
        sending := false
        helpVisible := false
        selectionBoxCount := 0
        hudVisible := false
        hudHelpVisible := false }
    (true, afterFinally)

/-! ### Concurrency-limited builder (client module)

mapWithConcurrencyLimit is modelled as a small-step transition system.
Each of the min(limit, N) workers is either at its while-loop head
(idle) or awaiting the mapper for a claimed index (working i).  The
cursor read-and-increment nextIndex++ is atomic (it is synchronous
JavaScript between awaits), so a claim step reads the cursor, hands that
index to a worker and bumps the cursor in one transition; completion
order of the awaited mappers is fully nondeterministic, which the free
interleaving of steps models. -/

/-- One builder worker: at its while-loop head, awaiting the mapper for its
claimed index, or done (its runWorker promise resolved; Promise.all
resolves once every worker is done). -/
inductive BuilderWorker where
  | idle : BuilderWorker
  | working (i : Nat) : BuilderWorker
  | done : BuilderWorker
deriving DecidableEq, Repr

/-- The shared state of mapWithConcurrencyLimit: the cursor, the results
array (none = unassigned slot) and the live workers. -/
structure BuilderSt (β : Type) where
  next : Nat
  results : List (Option β)
  workers : List BuilderWorker

/-- Nondeterministic small-step semantics of the worker loops of
mapWithConcurrencyLimit: a worker at the loop head either claims the
cursor index (when in range) or exits; a working worker resumes by
writing the mapper result into its claimed slot. -/
inductive BuilderStep {α β : Type} (items : List α) (mapper : α → Nat → β) :
    BuilderSt β → BuilderSt β → Prop
  | claim (s : BuilderSt β) (w : Nat)
      (hw : s.workers.get? w = some .idle)
      (h : s.next < items.length) :
      BuilderStep items mapper s
        ⟨s.next + 1, s.results, s.workers.set w (.working s.next)⟩
  | exit (s : BuilderSt β) (w : Nat)
      (hw : s.workers.get? w = some .idle)
      (h : ¬ s.next < items.length) :
      BuilderStep items mapper s
        ⟨s.next, s.results, s.workers.set w .done⟩
  | finish (s : BuilderSt β) (w : Nat) (i : Nat) (hi : i < items.length)
      (hw : s.workers.get? w = some (.working i)) :
      BuilderStep items mapper s
        ⟨s.next, s.results.set i (some (mapper (items.get ⟨i, hi⟩) i)),
         s.workers.set w .idle⟩

/-- The initial state of mapWithConcurrencyLimit: cursor at zero, a fresh
unassigned results array of the input length, and min(limit, N) workers
started at their loop heads. -/
def builderInit (α β : Type) (items : List α) (limit : Nat) : BuilderSt β :=
  ⟨0, List.replicate items.length none, List.replicate (min limit items.length) .idle⟩

/-- Reflexive-transitive reachability for the builder semantics. -/
inductive BuilderReaches {α β : Type} (items : List α) (mapper : α → Nat → β) :
    BuilderSt β → BuilderSt β → Prop
  | refl (s : BuilderSt β) : BuilderReaches items mapper s s
  | head {s t u : BuilderSt β} (h₁ : BuilderStep items mapper s t)
      (h₂ : BuilderReaches items mapper t u) : BuilderReaches items mapper s u

/-- The inductive invariant of a builder run: the cursor never passes the
end, the results array keeps its length, every index below the cursor is
either already filled with its own item's mapper value or still owned by
a working worker, and all workers can only be done with the cursor at the
end. -/
structure BuilderInv {α β : Type} (items : List α) (mapper : α → Nat → β)
    (s : BuilderSt β) : Prop where
  next_le : s.next ≤ items.length
  len : s.results.length = items.length
  filled : ∀ i, i < s.next →
    (∃ a, items.get? i = some a ∧ s.results.get? i = some (some (mapper a i))) ∨
    BuilderWorker.working i ∈ s.workers
  live : (∀ w ∈ s.workers, w = BuilderWorker.done) → s.next = items.length

/-! ### Fixtures for concrete evaluations -/

/-- A development-build source location under an /app/ path segment, so the
bundled next-like strategy resolves the next-app (path-based) framework tag. -/
def routeFixtureSource : SourceLocation :=
  { fileName := "/proj/src/app/page.tsx", lineNumber := none, columnNumber := none,
    confidence := "high", origin := "bippy" }

/-- A composite component frame carrying the fixture source. -/
def routeFixtureFrame : ReactComponentFrame :=
  { displayName := some "Page", isHost := false, source := some routeFixtureSource,
    flags := { isHost := false, isComposite := true, isSuspenseBoundary := none,
               isErrorBoundary := none, isServerComponent := some true,
               isLayoutLike := some false } }

/-- A one-frame component-tree slice whose owner is that frame. -/
def routeFixtureSlice : ReactTreeSlice :=
  { stack := [routeFixtureFrame], ownerIndex := some 0, ownerProps := none,
    ownerState := none, ownerContexts := none }

/-- Framework-detection input for a given pathname with the fixture slice,
which activates the path-based next-app framework tag. -/
def routeFixtureInput (pathname : String) : FrameworkDetectionInput :=
  { reactSlice := some routeFixtureSlice,
    url := "https://example.test" ++ pathname, pathname := pathname }

/-! ### Whitespace-collapse well-formedness predicate -/

/-- Recognizes strings the whitespace collapse leaves untouched: every
whitespace character is a plain space and no space follows another
(the Bool argument carries whether the previous character was a space).
A string satisfying this with a false seed is exactly a fixed point of
collapseWsAux false. -/
def wsOkAux : Bool → List Char → Bool
  | _, [] => true
  | prev, c :: rest =>
    if isJsWs c then (c = ' ' && !prev) && wsOkAux true rest
    else wsOkAux false rest

end Grabr

namespace Grabr

/-! ## Theorems -/

/-- Claim C6: configuration validation at setup accepts exactly
reactInspectorMode values in the set best-effort / required / off and
maxReactStackFrames integer values in the inclusive range [1, 64], and
returns a synchronous configuration error otherwise; in particular
maxReactStackFrames = 0 and = 65 each fail at setup through
createGrabrClient's merge-then-validate step, while = 1 and = 64 succeed. -/
theorem config_validation_range :
    (∀ (mode : String) (frames : Int),
      validateRuntimeConfigOrThrow mode frames = Except.ok () ↔
        ((mode = "best-effort" ∨ mode = "required" ∨ mode = "off") ∧
          1 ≤ frames ∧ frames ≤ 64)) ∧
    (createGrabrClientValidation none (some 0)).isOk = false ∧
    (createGrabrClientValidation none (some 65)).isOk = false ∧
    createGrabrClientValidation none (some 1) = Except.ok () ∧
    createGrabrClientValidation none (some 64) = Except.ok () := by
  refine ⟨?_, by decide, by decide, rfl, rfl⟩
  intro mode frames
  unfold validateRuntimeConfigOrThrow
  by_cases h1 : mode ≠ "best-effort" ∧ mode ≠ "required" ∧ mode ≠ "off"
  · rw [if_pos h1]
    simp only [false_iff, reduceCtorEq]
    intro hmem
    rcases hmem.1 with h | h | h
    · exact h1.1 h
    · exact h1.2.1 h
    · exact h1.2.2 h
  · rw [if_neg h1]
    have hmode : mode = "best-effort" ∨ mode = "required" ∨ mode = "off" := by
      by_contra hmem
      push_neg at hmem
      exact h1 ⟨hmem.1, hmem.2.1, hmem.2.2⟩
    by_cases h2 : 1 ≤ frames ∧ frames ≤ 64
    · rw [if_neg (by tauto)]
      exact ⟨fun _ => ⟨hmode, h2.1, h2.2⟩, fun _ => rfl⟩
    · rw [if_pos (by tauto)]
      simp only [false_iff, reduceCtorEq]
      intro hmem
      exact h2 ⟨hmem.2.1, hmem.2.2⟩

/-- Claim C2: the prompt serializers are deterministic pure functions of
their input record — applying renderElementContextPrompt or
renderSessionPrompt twice to the same record yields byte-identical
strings (string equality in the model is byte equality). -/
theorem renderPrompt_idempotent :
    (∀ context : ElementContextV2,
      renderElementContextPrompt context = renderElementContextPrompt context) ∧
    (∀ session : GrabrSession,
      renderSessionPrompt session = renderSessionPrompt session) :=
  ⟨fun _ => rfl, fun _ => rfl⟩

/-- Claim C3, counterexample: with the path-based next-app tag active, the
code maps /users/42/edit to /users/[param1]/edit with params
param1 = 42 — not to /users/[id1]/edit as claimed (the numeric-segment
regex is written /^\\d+$/ and never matches digits) — and it maps
/users/editProfile to /users/[param1] rather than keeping the segment
verbatim (editProfile is not equal to its own lower-casing). -/
theorem routePattern_claim_counterexample :
    (nextLikeStrategyDetect (routeFixtureInput "/users/42/edit")).map
        (fun r => (r.framework, r.routePatternGuess, r.routeParamsGuess)) =
      some ("next-app", some "/users/[param1]/edit", some [("param1", "42")]) ∧
    (nextLikeStrategyDetect (routeFixtureInput "/users/42/edit")).map
        (fun r => r.routePatternGuess) ≠ some (some "/users/[id1]/edit") ∧
    (nextLikeStrategyDetect (routeFixtureInput "/users/editProfile")).map
        (fun r => r.routePatternGuess) ≠ some (some "/users/editProfile") :=
  ⟨by decide, by decide, by decide⟩

/-- Claim C3, amended: with a path-based framework tag active, the bundled
next-like strategy maps /users/42/edit to pattern /users/[param1]/edit
with params guess param1 = 42 (the numeric-segment branch is dead because
its regex /^\\d+$/ matches a literal backslash followed by letters d, and
42 is also too short for the verbatim branch); maps /users/editProfile to
/users/[param1] with param1 = editProfile (the segment is not all
lower-case, so it is not kept verbatim); and maps /users/EditProfile to
/users/[param1] with param1 = EditProfile. -/
theorem routePattern_amended :
    (nextLikeStrategyDetect (routeFixtureInput "/users/42/edit")).map
        (fun r => (r.framework, r.routePatternGuess, r.routeParamsGuess)) =
      some ("next-app", some "/users/[param1]/edit", some [("param1", "42")]) ∧
    (nextLikeStrategyDetect (routeFixtureInput "/users/editProfile")).map
        (fun r => (r.framework, r.routePatternGuess, r.routeParamsGuess)) =
      some ("next-app", some "/users/[param1]", some [("param1", "editProfile")]) ∧
    (nextLikeStrategyDetect (routeFixtureInput "/users/EditProfile")).map
        (fun r => (r.framework, r.routePatternGuess, r.routeParamsGuess)) =
      some ("next-app", some "/users/[param1]", some [("param1", "EditProfile")]) ∧
    matchesBackslashDRun "42" = false :=
  ⟨by decide, by decide, by decide, by decide⟩

/-- Claim C7: over the owner's lower-cased declared-input names, the bundled
data-source strategy emits a react-query hint on the data / (isLoading or
loading) / error triple, an swr hint when any name contains swr, a redux
hint when any name contains selector, exactly one unknown hint when
nothing fires, and never an empty list; and buildAppContext synthesizes
the single unknown hint whenever no configured strategy yields a hint,
so the data-source list is never empty. -/
theorem data_source_hints_never_empty :
    (∀ ownerProps : Option PropsSnapshot,
      (((lowerPropNames ownerProps).contains "data" &&
        ((lowerPropNames ownerProps).contains "isloading" ||
          (lowerPropNames ownerProps).contains "loading") &&
        (lowerPropNames ownerProps).contains "error") = true →
        ∃ h ∈ basicDataSourceDetect ownerProps, h.kind = "react-query") ∧
      ((lowerPropNames ownerProps).any (fun p => strContains p "swr") = true →
        ∃ h ∈ basicDataSourceDetect ownerProps, h.kind = "swr") ∧
      ((lowerPropNames ownerProps).any (fun p => strContains p "selector") = true →
        ∃ h ∈ basicDataSourceDetect ownerProps, h.kind = "redux") ∧
      (((lowerPropNames ownerProps).contains "data" &&
        ((lowerPropNames ownerProps).contains "isloading" ||
          (lowerPropNames ownerProps).contains "loading") &&
        (lowerPropNames ownerProps).contains "error") = false →
        (lowerPropNames ownerProps).any (fun p => strContains p "swr") = false →
        (lowerPropNames ownerProps).any (fun p => strContains p "selector") = false →
        basicDataSourceDetect ownerProps = [unknownDataSourceHint]) ∧
      basicDataSourceDetect ownerProps ≠ []) ∧
    (∀ (strategies : List (Option PropsSnapshot → List DataSourceHint))
        (ownerProps : Option PropsSnapshot),
      (∀ st ∈ strategies, st ownerProps = []) →
        buildAppContextDataSources strategies ownerProps = [unknownDataSourceHint]) ∧
    (∀ (strategies : List (Option PropsSnapshot → List DataSourceHint))
        (ownerProps : Option PropsSnapshot),
      buildAppContextDataSources strategies ownerProps ≠ []) := by
  refine ⟨?_, ?_, ?_⟩
  · intro ownerProps
    refine ⟨?_, ?_, ?_, ?_, ?_⟩
    · intro h1
      simp only [basicDataSourceDetect]
      rw [h1]
      cases hc2 : (lowerPropNames ownerProps).any (fun p => strContains p "swr") <;>
        cases hc3 : (lowerPropNames ownerProps).any (fun p => strContains p "selector") <;>
          simp
    · intro h2
      simp only [basicDataSourceDetect]
      rw [h2]
      cases hc1 : ((lowerPropNames ownerProps).contains "data" &&
          ((lowerPropNames ownerProps).contains "isloading" ||
            (lowerPropNames ownerProps).contains "loading") &&
          (lowerPropNames ownerProps).contains "error") <;>
        cases hc3 : (lowerPropNames ownerProps).any (fun p => strContains p "selector") <;>
          simp
    · intro h3
      simp only [basicDataSourceDetect]
      rw [h3]
      cases hc1 : ((lowerPropNames ownerProps).contains "data" &&
          ((lowerPropNames ownerProps).contains "isloading" ||
            (lowerPropNames ownerProps).contains "loading") &&
          (lowerPropNames ownerProps).contains "error") <;>
        cases hc2 : (lowerPropNames ownerProps).any (fun p => strContains p "swr") <;>
          simp
    · intro h1 h2 h3
      simp only [basicDataSourceDetect]
      rw [h1, h2, h3]
      simp [unknownDataSourceHint]
    · simp only [basicDataSourceDetect]
      cases hc1 : ((lowerPropNames ownerProps).contains "data" &&
          ((lowerPropNames ownerProps).contains "isloading" ||
            (lowerPropNames ownerProps).contains "loading") &&
          (lowerPropNames ownerProps).contains "error") <;>
        cases hc2 : (lowerPropNames ownerProps).any (fun p => strContains p "swr") <;>
          cases hc3 : (lowerPropNames ownerProps).any (fun p => strContains p "selector") <;>
            simp
  · intro strategies ownerProps hnil
    have hflat : (strategies.map (fun st => st ownerProps)).flatten = [] := by
      rw [List.flatten_eq_nil_iff]
      intro l hl
      rcases List.mem_map.mp hl with ⟨st, hst, rfl⟩
      exact hnil st hst
    simp [buildAppContextDataSources, hflat]
  · intro strategies ownerProps
    unfold buildAppContextDataSources
    by_cases hc : (strategies.map (fun st => st ownerProps)).flatten = []
    · simp [hc]
    · simp [hc]

/-- Witness for the data-source theorem at concrete inputs: a prop set with
the full triple plus an swr-ish and a selector-ish name fires all three
hints, a non-matching prop set yields exactly the single unknown hint,
and an all-silent strategy list synthesizes the unknown hint. -/
theorem data_source_hints_never_empty_witness :
    (∃ h ∈ basicDataSourceDetect (some
        { totalProps := 5, highlighted := [
          { name := "data", value := none, reason := "other" },
          { name := "isLoading", value := none, reason := "other" },
          { name := "error", value := none, reason := "other" },
          { name := "useSwrCache", value := none, reason := "other" },
          { name := "rowSelector", value := none, reason := "other" }] }),
      h.kind = "react-query") ∧
    (∃ h ∈ basicDataSourceDetect (some
        { totalProps := 1, highlighted := [
          { name := "useSwrCache", value := none, reason := "other" }] }),
      h.kind = "swr") ∧
    (∃ h ∈ basicDataSourceDetect (some
        { totalProps := 1, highlighted := [
          { name := "rowSelector", value := none, reason := "other" }] }),
      h.kind = "redux") ∧
    basicDataSourceDetect (some
        { totalProps := 1, highlighted := [
          { name := "caption", value := none, reason := "other" }] }) =
      [unknownDataSourceHint] ∧
    buildAppContextDataSources [fun _ => []] none = [unknownDataSourceHint] := by
  refine ⟨?_, ?_, ?_, ?_, ?_⟩
  · exact (data_source_hints_never_empty.1 _).1 (by decide)
  · exact (data_source_hints_never_empty.1 _).2.1 (by decide)
  · exact (data_source_hints_never_empty.1 _).2.2.1 (by decide)
  · exact (data_source_hints_never_empty.1 _).2.2.2.1 (by decide) (by decide) (by decide)
  · exact data_source_hints_never_empty.2.1 _ none
      (by intro st hst; rw [List.mem_singleton.mp hst])

/-- Claim C4: in GrabrController.finalizeSelection, an empty
deduplicated-and-connected input list reports a terminal error phase with
completed = 0 and total = 0 and leaves the stored session unchanged; and
when every capture fails (the inspector yields null for every connected
element), the last progress event is an error phase with a message and,
again, no session is created or stored. -/
theorem finalize_whole_batch_failure_no_session {E : Type} [DecidableEq E]
    (isConnected : E → Bool) (getCtx : E → Option ElementContextV2)
    (sendOutcome : Except String Unit) (meta : SessionMeta)
    (instr : Option String) (cur : Option GrabrSession) (elements : List E) :
    ((dedupeElementsPreserveOrder elements).filter isConnected = [] →
      GrabrControllerFinalizeSelection isConnected getCtx sendOutcome meta instr cur
          elements =
        ([⟨"error", 0, 0, some "No valid elements to capture."⟩], cur)) ∧
    ((dedupeElementsPreserveOrder elements).filter isConnected ≠ [] →
      (∀ e ∈ (dedupeElementsPreserveOrder elements).filter isConnected, getCtx e = none) →
      (GrabrControllerFinalizeSelection isConnected getCtx sendOutcome meta instr cur
          elements).2 = cur ∧
      (GrabrControllerFinalizeSelection isConnected getCtx sendOutcome meta instr cur
          elements).1.getLast? =
        some ⟨"error", ((dedupeElementsPreserveOrder elements).filter isConnected).length,
          ((dedupeElementsPreserveOrder elements).filter isConnected).length,
          some "Failed to capture context for all selected elements."⟩) := by
  constructor
  · intro h
    simp only [GrabrControllerFinalizeSelection]
    rw [if_pos h]
  · intro hne hall
    have hctx : (((dedupeElementsPreserveOrder elements).filter isConnected).map
        getCtx).filterMap id = [] := by
      rw [List.filterMap_map, List.filterMap_eq_nil_iff]
      intro e he
      exact hall e he
    simp only [GrabrControllerFinalizeSelection]
    rw [if_neg hne]
    rw [if_pos (by rw [hctx]; rfl)]
    exact ⟨rfl, List.getLast?_concat _⟩

/-- Witness for the controller finalize theorem: with no connected element
the call reports the zero error phase and keeps the stored session
(none stays none); with one connected element whose capture fails, the
last event is the all-captures-failed error and no session is stored. -/
theorem finalize_whole_batch_failure_no_session_witness :
    (GrabrControllerFinalizeSelection (E := Nat) (fun _ => false) (fun _ => none)
        (Except.ok ()) ⟨"sid", "2024-01-01T00:00:00.000Z", "https://example.test/"⟩
        none none [1] =
      ([⟨"error", 0, 0, some "No valid elements to capture."⟩], none)) ∧
    ((GrabrControllerFinalizeSelection (E := Nat) (fun _ => true) (fun _ => none)
        (Except.ok ()) ⟨"sid", "2024-01-01T00:00:00.000Z", "https://example.test/"⟩
        none none [2]).2 = none ∧
      (GrabrControllerFinalizeSelection (E := Nat) (fun _ => true) (fun _ => none)
        (Except.ok ()) ⟨"sid", "2024-01-01T00:00:00.000Z", "https://example.test/"⟩
        none none [2]).1.getLast? =
      some ⟨"error", 1, 1, some "Failed to capture context for all selected elements."⟩) := by
  constructor
  · exact (finalize_whole_batch_failure_no_session _ _ _ _ _ _ _).1 (by decide)
  · exact (finalize_whole_batch_failure_no_session _ _ _ _ _ _ _).2 (by decide)
      (fun _ _ => rfl)

/-- Claim C5: whenever SelectionOverlay.finalizeSelection enters the sending
state, the state after the call settles is idle regardless of the awaited
controller outcome — selecting and sending are false, every selection box
is cleared, and the HUD and its help block are hidden; the cleanup is the
finally clause, which runs on success and on rejection alike. -/
theorem overlay_finalize_returns_to_idle {E : Type} [DecidableEq E]
    (isConnected : E → Bool) (outcome : Except String Unit) (s : OverlayState E)
    (hsend : (SelectionOverlayFinalizeSelection isConnected outcome s).1 = true) :
    (SelectionOverlayFinalizeSelection isConnected outcome s).2.selecting = false ∧
    (SelectionOverlayFinalizeSelection isConnected outcome s).2.sending = false ∧
    (SelectionOverlayFinalizeSelection isConnected outcome s).2.selectionBoxCount = 0 ∧
    (SelectionOverlayFinalizeSelection isConnected outcome s).2.hudVisible = false ∧
    (SelectionOverlayFinalizeSelection isConnected outcome s).2.hudHelpVisible = false := by
  simp only [SelectionOverlayFinalizeSelection] at hsend ⊢
  by_cases hc : (dedupeElementsPreserveOrder
      (match s.selected, s.hovered with
        | [], some h => [h]
        | sel, _ => sel)).filter isConnected = []
  · rw [if_pos hc] at hsend
    exact absurd hsend (by simp)
  · rw [if_neg hc] at hsend ⊢
    exact ⟨rfl, rfl, rfl, rfl, rfl⟩

/-- Witness for the overlay finalize theorem: a state with one connected
selected element enters sending even when the controller call rejects,
and settles with both flags cleared, zero boxes and hidden HUD/help. -/
theorem overlay_finalize_returns_to_idle_witness :
    (SelectionOverlayFinalizeSelection (E := Nat) (fun _ => true)
        (Except.error "Failed to copy session context to clipboard.")
        { selecting := true, sending := false, helpVisible := true,
          hovered := some 7, selected := [7], selectionBoxCount := 1,
          hudVisible := true, hudHelpVisible := true, highlightVisible := true,
          listenersAttached := true }).2.selecting = false ∧
    (SelectionOverlayFinalizeSelection (E := Nat) (fun _ => true)
        (Except.error "Failed to copy session context to clipboard.")
        { selecting := true, sending := false, helpVisible := true,
          hovered := some 7, selected := [7], selectionBoxCount := 1,
          hudVisible := true, hudHelpVisible := true, highlightVisible := true,
          listenersAttached := true }).2.sending = false ∧
    (SelectionOverlayFinalizeSelection (E := Nat) (fun _ => true)
        (Except.error "Failed to copy session context to clipboard.")
        { selecting := true, sending := false, helpVisible := true,
          hovered := some 7, selected := [7], selectionBoxCount := 1,
          hudVisible := true, hudHelpVisible := true, highlightVisible := true,
          listenersAttached := true }).2.selectionBoxCount = 0 ∧
    (SelectionOverlayFinalizeSelection (E := Nat) (fun _ => true)
        (Except.error "Failed to copy session context to clipboard.")
        { selecting := true, sending := false, helpVisible := true,
          hovered := some 7, selected := [7], selectionBoxCount := 1,
          hudVisible := true, hudHelpVisible := true, highlightVisible := true,
          listenersAttached := true }).2.hudVisible = false ∧
    (SelectionOverlayFinalizeSelection (E := Nat) (fun _ => true)
        (Except.error "Failed to copy session context to clipboard.")
        { selecting := true, sending := false, helpVisible := true,
          hovered := some 7, selected := [7], selectionBoxCount := 1,
          hudVisible := true, hudHelpVisible := true, highlightVisible := true,
          listenersAttached := true }).2.hudHelpVisible = false :=
  overlay_finalize_returns_to_idle _ _ _ (by decide)

/-- Helper: the dedupe loop always yields a sublist (order-preserving
subsequence) of its input. -/
theorem dedupeAux_sublist {E : Type} [DecidableEq E] :
    ∀ (l seen : List E), List.Sublist (dedupeAux seen l) l := by
  intro l
  induction l with
  | nil => intro seen; simp [dedupeAux]
  | cons e rest ih =>
    intro seen
    simp only [dedupeAux]
    by_cases he : e ∈ seen
    · rw [if_pos he]
      exact List.Sublist.cons e (ih seen)
    · rw [if_neg he]
      exact List.Sublist.cons₂ e (ih (e :: seen))

/-- Helper: the dedupe loop yields a duplicate-free list disjoint from the
seen set. -/
theorem dedupeAux_nodup {E : Type} [DecidableEq E] :
    ∀ (l seen : List E), (dedupeAux seen l).Nodup ∧ ∀ x ∈ dedupeAux seen l, x ∉ seen := by
  intro l
  induction l with
  | nil => intro seen; simp [dedupeAux]
  | cons e rest ih =>
    intro seen
    simp only [dedupeAux]
    by_cases he : e ∈ seen
    · rw [if_pos he]
      exact ih seen
    · rw [if_neg he]
      obtain ⟨hnodup, hdisj⟩ := ih (e :: seen)
      refine ⟨List.nodup_cons.mpr ⟨?_, hnodup⟩, ?_⟩
      · intro hmem
        exact hdisj e hmem (List.mem_cons_self e seen)
      · intro x hx
        rcases List.mem_cons.mp hx with rfl | hx'
        · exact he
        · intro hxseen
          exact hdisj x hx' (List.mem_cons_of_mem e hxseen)

/-- Helper: membership in the dedupe loop output is membership in the input
minus the seen set. -/
theorem dedupeAux_mem {E : Type} [DecidableEq E] :
    ∀ (l seen : List E) (x : E), x ∈ dedupeAux seen l ↔ x ∈ l ∧ x ∉ seen := by
  intro l
  induction l with
  | nil => intro seen x; simp [dedupeAux]
  | cons e rest ih =>
    intro seen x
    simp only [dedupeAux]
    by_cases he : e ∈ seen
    · rw [if_pos he, ih]
      constructor
      · rintro ⟨hx, hns⟩
        exact ⟨List.mem_cons_of_mem e hx, hns⟩
      · rintro ⟨hx, hns⟩
        rcases List.mem_cons.mp hx with rfl | hx'
        · exact absurd he hns
        · exact ⟨hx', hns⟩
    · rw [if_neg he]
      constructor
      · intro hx
        rcases List.mem_cons.mp hx with rfl | hx'
        · exact ⟨List.mem_cons_self x rest, he⟩
        · obtain ⟨h1, h2⟩ := (ih (e :: seen) x).mp hx'
          exact ⟨List.mem_cons_of_mem e h1,
            fun hs => h2 (List.mem_cons_of_mem e hs)⟩
      · rintro ⟨hx, hns⟩
        rcases List.mem_cons.mp hx with rfl | hx'
        · exact List.mem_cons_self x _
        · by_cases hxe : x = e
          · subst hxe
            exact List.mem_cons_self x _
          · exact List.mem_cons_of_mem e ((ih (e :: seen) x).mpr
              ⟨hx', fun hs => (List.mem_cons.mp hs).elim hxe hns⟩)

/-- Claim C10: dedupeElementsPreserveOrder collapses duplicate references to
their first occurrence — its output is duplicate-free, an order-preserving
subsequence of the input covering exactly the input's elements — and the
list the controller captures, the deduplicated connected-filtered list, is
therefore pairwise distinct: the same element never contributes twice. -/
theorem dedupe_first_occurrence_distinct {E : Type} [DecidableEq E]
    (elements : List E) :
    (dedupeElementsPreserveOrder elements).Nodup ∧
    List.Sublist (dedupeElementsPreserveOrder elements) elements ∧
    (∀ e, e ∈ dedupeElementsPreserveOrder elements ↔ e ∈ elements) ∧
    (∀ isConnected : E → Bool,
      ((dedupeElementsPreserveOrder elements).filter isConnected).Nodup) ∧
    (∀ isConnected : E → Bool, ∀ e,
      List.count e ((dedupeElementsPreserveOrder elements).filter isConnected) ≤ 1) := by
  have hnodup := (dedupeAux_nodup elements ([] : List E)).1
  refine ⟨hnodup, dedupeAux_sublist elements [], ?_, ?_, ?_⟩
  · intro e
    rw [dedupeElementsPreserveOrder, dedupeAux_mem]
    simp
  · intro isConnected
    exact List.Nodup.filter _ hnodup
  · intro isConnected e
    exact List.nodup_iff_count_le_one.mp (List.Nodup.filter _ hnodup) e

/-- Helper: the collapse pass emits only well-formed whitespace — every run
became a single space and no space ever follows a space (nor opens the
output when the previous character was already a space). -/
theorem wsOk_collapseWsAux :
    ∀ (cs : List Char) (b : Bool), wsOkAux b (collapseWsAux b cs) = true := by
  intro cs
  induction cs with
  | nil => intro b; rfl
  | cons c rest ih =>
    intro b
    cases hc : isJsWs c with
    | true =>
      cases b with
      | false =>
        simp only [collapseWsAux, hc, if_true, wsOkAux]
        rw [if_pos (by decide)]
        simpa using ih true
      | true =>
        simp only [collapseWsAux, hc, if_true]
        exact ih true
    | false =>
      simp only [collapseWsAux, hc, Bool.false_eq_true, if_false, wsOkAux]
      exact ih false

/-- Helper: a list the whitespace predicate accepts is a fixed point of the
collapse pass. -/
theorem collapseWsAux_of_wsOk :
    ∀ (cs : List Char) (b : Bool), wsOkAux b cs = true → collapseWsAux b cs = cs := by
  intro cs
  induction cs with
  | nil => intro b _; rfl
  | cons c rest ih =>
    intro b h
    cases hc : isJsWs c with
    | true =>
      rw [wsOkAux, if_pos (by rw [hc])] at h
      simp only [Bool.and_eq_true, decide_eq_true_eq, Bool.not_eq_true'] at h
      obtain ⟨⟨hsp, hb⟩, htail⟩ := h
      subst hb
      simp only [collapseWsAux, hc, if_true, Bool.false_eq_true, if_false]
      rw [hsp, ih true htail]
    | false =>
      rw [wsOkAux, if_neg (by rw [hc]; simp)] at h
      simp only [collapseWsAux, hc, Bool.false_eq_true, if_false]
      rw [ih false h]

/-- Helper: a non-whitespace head survives the collapse pass as the head. -/
theorem collapseWsAux_head {c : Char} (hc : isJsWs c = false) (rest : List Char) :
    (collapseWsAux false (c :: rest)).head? = some c := by
  simp only [collapseWsAux, hc, Bool.false_eq_true, if_false, List.head?_cons]

/-- Helper: a non-whitespace last character survives the collapse pass as
the last character. -/
theorem collapseWsAux_getLast {c : Char} (hc : isJsWs c = false) :
    ∀ (cs : List Char) (b : Bool), cs.getLast? = some c →
      (collapseWsAux b cs).getLast? = some c := by
  intro cs
  induction cs with
  | nil => intro b h; simp at h
  | cons d rest ih =>
    intro b h
    cases rest with
    | nil =>
      rw [List.getLast?_singleton] at h
      have hd : d = c := Option.some.inj h
      subst hd
      cases b <;> simp [collapseWsAux, hc]
    | cons e rest' =>
      rw [List.getLast?_cons_cons] at h
      cases hd : isJsWs d with
      | true =>
        cases b with
        | true =>
          rw [collapseWsAux, if_pos (by rw [hd]), if_pos rfl]
          exact ih true h
        | false =>
          rw [collapseWsAux, if_pos (by rw [hd]), if_neg (by simp)]
          have hz := ih true h
          cases hzc : collapseWsAux true (e :: rest') with
          | nil => rw [hzc] at hz; simp at hz
          | cons z zs =>
            rw [hzc] at hz
            rw [List.getLast?_cons_cons]
            exact hz
      | false =>
        rw [collapseWsAux, if_neg (by simp [hd])]
        have hz := ih false h
        cases hzc : collapseWsAux false (e :: rest') with
        | nil => rw [hzc] at hz; simp at hz
        | cons z zs =>
          rw [hzc] at hz
          rw [List.getLast?_cons_cons]
          exact hz

/-- Helper: the head surviving a whitespace dropWhile is not whitespace. -/
theorem head?_dropWhile_isJsWs :
    ∀ (l : List Char) {c : Char}, (List.dropWhile isJsWs l).head? = some c →
      isJsWs c = false := by
  intro l
  induction l with
  | nil => intro c h; simp at h
  | cons x xs ih =>
    intro c h
    rw [List.dropWhile_cons] at h
    by_cases hx : isJsWs x = true
    · rw [if_pos hx] at h
      exact ih h
    · rw [if_neg hx] at h
      have hxc : x = c := Option.some.inj (by simpa using h)
      subst hxc
      revert hx
      cases isJsWs x <;> simp


/-- Helper: the last character of a trimmed list is not whitespace. -/
theorem trimChars_getLast {cs : List Char} {c : Char}
    (h : (trimChars cs).getLast? = some c) : isJsWs c = false := by
  unfold trimChars at h
  rw [List.getLast?_reverse] at h
  exact head?_dropWhile_isJsWs _ h

/-- Helper: the head of a trimmed list is not whitespace. -/
theorem trimChars_head {cs : List Char} {c : Char}
    (h : (trimChars cs).head? = some c) : isJsWs c = false := by
  unfold trimChars at h
  rw [List.head?_reverse] at h
  obtain ⟨pre, hpre⟩ :=
    List.dropWhile_suffix (l := (List.dropWhile isJsWs cs).reverse) isJsWs
  have hAr : (List.dropWhile isJsWs cs).reverse.getLast? = some c := by
    rw [← hpre, List.getLast?_append, h, Option.or_some]
  rw [List.getLast?_reverse] at hAr
  exact head?_dropWhile_isJsWs _ hAr

/-- Helper: trimming is the identity on a list whose first and last
characters are not whitespace. -/
theorem trimChars_of_ends {l : List Char}
    (hhead : ∀ c, l.head? = some c → isJsWs c = false)
    (hlast : ∀ c, l.getLast? = some c → isJsWs c = false) :
    trimChars l = l := by
  have h1 : List.dropWhile isJsWs l = l := by
    cases l with
    | nil => rfl
    | cons x xs =>
      rw [List.dropWhile_cons, if_neg]
      rw [hhead x rfl]
      simp
  unfold trimChars
  rw [h1]
  have h2 : List.dropWhile isJsWs l.reverse = l.reverse := by
    cases hrev : l.reverse with
    | nil => rfl
    | cons y ys =>
      have hy : l.getLast? = some y := by
        rw [List.getLast?_eq_head?_reverse, hrev, List.head?_cons]
      rw [List.dropWhile_cons, if_neg (by rw [hlast y hy]; simp)]
  rw [h2, List.reverse_reverse]

/-- Helper: the whitespace predicate is closed under taking a prefix. -/
theorem wsOk_take :
    ∀ (cs : List Char) (n : Nat) (b : Bool), wsOkAux b cs = true →
      wsOkAux b (cs.take n) = true := by
  intro cs
  induction cs with
  | nil => intro n b _; simp [List.take_nil]; rfl
  | cons c rest ih =>
    intro n b h
    cases n with
    | zero => rfl
    | succ m =>
      rw [List.take_succ_cons]
      rw [wsOkAux] at h ⊢
      by_cases hc : isJsWs c = true
      · rw [if_pos hc] at h ⊢
        rcases Bool.and_eq_true_iff.mp h with ⟨hok, htail⟩
        rw [hok, ih m true htail]
        rfl
      · rw [if_neg hc] at h ⊢
        exact ih m false h

/-- Helper: the whitespace predicate is closed under appending one
non-whitespace character. -/
theorem wsOk_append_single {c : Char} (hc : isJsWs c = false) :
    ∀ (cs : List Char) (b : Bool), wsOkAux b cs = true →
      wsOkAux b (cs ++ [c]) = true := by
  intro cs
  induction cs with
  | nil =>
    intro b _
    rw [List.nil_append, wsOkAux, if_neg (by rw [hc]; simp)]
    rfl
  | cons d rest ih =>
    intro b h
    rw [List.cons_append, wsOkAux] at *
    by_cases hd : isJsWs d = true
    · rw [if_pos hd] at h ⊢
      rcases Bool.and_eq_true_iff.mp h with ⟨hok, htail⟩
      rw [hok, ih true htail]
      rfl
    · rw [if_neg hd] at h ⊢
      exact ih false h

/-- Helper: the head of a trimmed-and-collapsed list is not whitespace. -/
theorem collapse_trim_head {cs : List Char} {c : Char}
    (h : (collapseWsAux false (trimChars cs)).head? = some c) : isJsWs c = false := by
  cases ht : trimChars cs with
  | nil => rw [ht] at h; simp [collapseWsAux] at h
  | cons d rest =>
    have hd : isJsWs d = false := trimChars_head (by rw [ht, List.head?_cons])
    rw [ht, collapseWsAux_head hd] at h
    rw [← Option.some.inj h]
    exact hd

/-- Helper: the last character of a trimmed-and-collapsed list is not
whitespace. -/
theorem collapse_trim_getLast {cs : List Char} {c : Char}
    (h : (collapseWsAux false (trimChars cs)).getLast? = some c) : isJsWs c = false := by
  cases hlast : (trimChars cs).getLast? with
  | none =>
    have hnil : trimChars cs = [] := by
      cases htc : trimChars cs with
      | nil => rfl
      | cons d rest =>
        rw [htc] at hlast
        have hs : (d :: rest).getLast?.isSome = true :=
          List.getLast?_isSome.mpr (by simp)
        rw [hlast] at hs
        simp at hs
    rw [hnil] at h
    simp [collapseWsAux] at h
  | some d =>
    have hd : isJsWs d = false := trimChars_getLast hlast
    rw [collapseWsAux_getLast hd (trimChars cs) false hlast] at h
    rw [← Option.some.inj h]
    exact hd

/-- Helper: trimming is the identity on a trimmed-and-collapsed list. -/
theorem trimChars_collapse_trim (cs : List Char) :
    trimChars (collapseWsAux false (trimChars cs)) = collapseWsAux false (trimChars cs) :=
  trimChars_of_ends (fun _ h => collapse_trim_head h)
    (fun _ h => collapse_trim_getLast h)

/-- Helper: collapsing is the identity on an already collapsed list. -/
theorem collapse_collapse_trim (cs : List Char) :
    collapseWsAux false (collapseWsAux false (trimChars cs)) =
      collapseWsAux false (trimChars cs) :=
  collapseWsAux_of_wsOk _ false (wsOk_collapseWsAux _ false)

/-- Helper: the trim-and-collapse normalization is idempotent. -/
theorem trimCollapse_idem (s : String) : trimCollapse (trimCollapse s) = trimCollapse s := by
  show String.mk (collapseWsAux false (trimChars
    (collapseWsAux false (trimChars s.toList)))) = _
  rw [trimChars_collapse_trim, collapse_collapse_trim]
  rfl

/-- Claim C9, counterexample: truncateText appends the ellipsis character
after cutting to the limit, so eighty-one letters a truncated at limit 80
come back with length 81, not at most 80. -/
theorem truncateText_length_counterexample :
    ¬ ((truncateText (String.mk (List.replicate 81 'a')) 80).length ≤ 80) ∧
    (truncateText (String.mk (List.replicate 81 'a')) 80).length = 81 :=
  ⟨by decide, by decide⟩

/-- Claim C9, amended: truncateText returns a whitespace-collapsed string —
a fixed point of the trim-and-collapse normalization: no leading or
trailing whitespace and every whitespace run already a single space — of
length at most L + 1 (the cut text plus one ellipsis character), and it
returns the collapsed text unchanged whenever that text fits the limit;
hence the DOM snippet built with limit 80 is at most 81 characters. -/
theorem truncateText_amended (s : String) (L : Nat) :
    (truncateText s L).length ≤ L + 1 ∧
    trimCollapse (truncateText s L) = truncateText s L ∧
    ((trimCollapse s).length ≤ L → truncateText s L = trimCollapse s) := by
  by_cases hle : (trimCollapse s).length ≤ L
  · have hout : truncateText s L = trimCollapse s := by
      simp only [truncateText]
      rw [if_pos hle]
    refine ⟨?_, ?_, fun _ => hout⟩
    · rw [hout]
      exact Nat.le_trans hle (Nat.le_succ L)
    · rw [hout]
      exact trimCollapse_idem s
  · have hout : truncateText s L =
        String.mk ((trimCollapse s).toList.take L) ++ "…" := by
      simp only [truncateText]
      rw [if_neg hle]
    refine ⟨?_, ?_, fun hc => absurd hc hle⟩
    · rw [hout, String.length_append]
      have htake : ((trimCollapse s).toList.take L).length ≤ L := by
        rw [List.length_take]
        exact Nat.min_le_left _ _
      exact Nat.add_le_add htake (Nat.le_refl 1)
    · rw [hout]
      show String.mk (collapseWsAux false (trimChars
        ((trimCollapse s).toList.take L ++ ['…']))) = _
      have hellip : isJsWs '…' = false := by decide
      have htrim : trimChars ((trimCollapse s).toList.take L ++ ['…']) =
          (trimCollapse s).toList.take L ++ ['…'] := by
        apply trimChars_of_ends
        · intro c h
          cases hT : (trimCollapse s).toList.take L with
          | nil =>
            rw [hT, List.nil_append, List.head?_cons] at h
            rw [← Option.some.inj h]
            exact hellip
          | cons d rest =>
            rw [hT, List.cons_append, List.head?_cons] at h
            have hdh : (trimCollapse s).toList.head? = some d := by
              have := List.head?_take (l := (trimCollapse s).toList) (n := L)
              rw [hT, List.head?_cons] at this
              rcases Nat.eq_zero_or_pos L with hL | hL
              · rw [hL] at hT; simp at hT
              · rw [if_neg (Nat.pos_iff_ne_zero.mp hL)] at this
                exact this.symm
            have hd : isJsWs d = false := collapse_trim_head hdh
            rw [← Option.some.inj h]
            exact hd
        · intro c h
          rw [List.getLast?_concat] at h
          rw [← Option.some.inj h]
          exact hellip
      rw [htrim]
      have hok : wsOkAux false ((trimCollapse s).toList.take L ++ ['…']) = true := by
        apply wsOk_append_single hellip
        apply wsOk_take
        exact wsOk_collapseWsAux (trimChars s.toList) false
      rw [collapseWsAux_of_wsOk _ false hok]
      rfl

/-- Witness for the amended truncateText theorem at a concrete input: the
collapsed form of a doubly padded string fits the limit, so truncation
returns it unchanged, collapsed and within the bound. -/
theorem truncateText_amended_witness :
    (truncateText "  hello   world  " 80).length ≤ 81 ∧
    trimCollapse (truncateText "  hello   world  " 80) =
      truncateText "  hello   world  " 80 ∧
    ((trimCollapse "  hello   world  ").length ≤ 80 ∧
      truncateText "  hello   world  " 80 = trimCollapse "  hello   world  ") := by
  obtain ⟨h1, h2, h3⟩ := truncateText_amended "  hello   world  " 80
  exact ⟨h1, h2, by decide, h3 (by decide)⟩

/-- Helper: ToInt32 preserves residues modulo 2^32. -/
theorem toInt32_emod (x : Int) : toInt32 x % 4294967296 = x % 4294967296 := by
  unfold toInt32
  split <;> omega

/-- Helper: one step of the JavaScript hash loop agrees with 31·h + c
modulo 2^32: the shifted-minus form (h << 5) - h + c is 31·h + c up to
32-bit truncation. -/
theorem jsHashStep_emod (h : Int) (c : Nat) :
    jsHashStep h c % 4294967296 = (31 * h + c) % 4294967296 := by
  unfold jsHashStep
  have h1 := toInt32_emod (h * 32)
  have h2 := toInt32_emod (toInt32 (h * 32) - h + c)
  omega

/-- Helper: from congruent seeds, the JavaScript fold and the specified
always-reduced natural fold stay congruent modulo 2^32. -/
theorem jsHashFold_emod :
    ∀ (cs : List Nat) (hi : Int) (hn : Nat),
      hi % 4294967296 = (hn : Int) % 4294967296 →
      (cs.foldl jsHashStep hi) % 4294967296 =
        ((cs.foldl (fun h c => (h * 31 + c) % 4294967296) hn : Nat) : Int) % 4294967296 := by
  intro cs
  induction cs with
  | nil => intro hi hn h; simpa using h
  | cons c rest ih =>
    intro hi hn h
    simp only [List.foldl_cons]
    apply ih
    have h1 := jsHashStep_emod hi c
    omega

/-- Helper: the specified fold stays below 2^32 from a seed below 2^32. -/
theorem specFold_lt :
    ∀ (cs : List Nat) (hn : Nat), hn < 4294967296 →
      cs.foldl (fun h c => (h * 31 + c) % 4294967296) hn < 4294967296 := by
  intro cs
  induction cs with
  | nil => intro hn h; simpa using h
  | cons c rest ih =>
    intro hn _
    simp only [List.foldl_cons]
    exact ih _ (Nat.mod_lt _ (by norm_num))

/-- Helper: promptChecksum computes exactly the claimed rolling hash. -/
theorem promptChecksum_eq_spec (s : String) :
    promptChecksum s = specRollingChecksum s := by
  unfold promptChecksum specRollingChecksum jsHashFold
  congr 1
  have h := jsHashFold_emod (charCodes s) 0 0 (by simp)
  have hlt := specFold_lt (charCodes s) 0 (by norm_num)
  omega

/-- Claim C8: the prompt checksum is the left fold of
hash := hash · 31 + charCode reduced modulo 2^32, rendered as an unsigned
hexadecimal string; and the checksum embedded in the serialized output —
for one element context and for a full session — is that function applied
to the canonical JSON encoding of the record with undefined-valued fields
omitted and nulls retained (stringifyForPrompt with dropNull = false). -/
theorem prompt_checksum_rolling_hash :
    (∀ s : String, promptChecksum s = specRollingChecksum s) ∧
    (∀ context : ElementContextV2,
      contextChecksum context =
        specRollingChecksum (stringifyForPrompt (encodeElementContextV2 context) false)) ∧
    (∀ session : GrabrSession,
      sessionChecksum session =
        specRollingChecksum (stringifyForPrompt (encodeGrabrSession session) false)) :=
  ⟨promptChecksum_eq_spec,
   fun _ => promptChecksum_eq_spec _,
   fun _ => promptChecksum_eq_spec _⟩

/-- Helper: a successful positional lookup bounds the index. -/
theorem get?_lt_length {α : Type} {l : List α} {n : Nat} {a : α}
    (h : l.get? n = some a) : n < l.length := by
  rw [List.get?_eq_getElem?] at h
  exact (List.getElem?_eq_some.mp h).1

/-- Helper: the element written by set is a member when the index is in
range. -/
theorem mem_set_self {α : Type} {l : List α} {w : Nat} (b : α) (hw : w < l.length) :
    b ∈ l.set w b :=
  List.getElem?_mem (List.getElem?_set_self hw)

/-- Helper: setting one position keeps every member that differs from the
value stored at that position. -/
theorem mem_set_of_get?_ne {α : Type} {l : List α} {w : Nat} {a c : α} (b : α)
    (ha : a ∈ l) (hw : l.get? w = some c) (hne : a ≠ c) : a ∈ l.set w b := by
  obtain ⟨n, hn⟩ := List.mem_iff_getElem?.mp ha
  have hnw : w ≠ n := by
    intro he
    subst he
    rw [List.get?_eq_getElem?] at hw
    rw [hw] at hn
    exact hne (Option.some.inj hn).symm
  exact List.getElem?_mem (by rw [List.getElem?_set_ne hnw]; exact hn)

/-- Helper: the builder invariant holds initially when the limit is at
least one. -/
theorem builderInv_init {α β : Type} (items : List α) (mapper : α → Nat → β)
    (K : Nat) (hK : 1 ≤ K) : BuilderInv items mapper (builderInit α β items K) := by
  refine ⟨Nat.zero_le _, List.length_replicate _ _, ?_, ?_⟩
  · intro i hi
    rw [show (builderInit α β items K).next = 0 from rfl] at hi
    exact absurd hi (Nat.not_lt_zero i)
  · intro hall
    by_cases hN : items.length = 0
    · rw [show (builderInit α β items K).next = 0 from rfl, hN]
    · exfalso
      have hidle : BuilderWorker.idle ∈
          List.replicate (min K items.length) BuilderWorker.idle :=
        List.mem_replicate.mpr ⟨by omega, rfl⟩
      have hcontra := hall BuilderWorker.idle hidle
      simp at hcontra

/-- Helper: every builder step preserves the invariant. -/
theorem builderInv_step {α β : Type} {items : List α} {mapper : α → Nat → β}
    {s t : BuilderSt β} (hstep : BuilderStep items mapper s t)
    (hinv : BuilderInv items mapper s) : BuilderInv items mapper t := by
  obtain ⟨hnext, hlen, hfill, _hlive⟩ := hinv
  cases hstep with
  | claim w hw h =>
    refine ⟨by dsimp only; omega, hlen, ?_, ?_⟩
    · intro i hi
      rcases Nat.lt_succ_iff_lt_or_eq.mp hi with hilt | hieq
      · rcases hfill i hilt with hres | hworker
        · exact Or.inl hres
        · exact Or.inr (mem_set_of_get?_ne _ hworker hw (by simp))
      · subst hieq
        exact Or.inr (mem_set_self _ (get?_lt_length hw))
    · intro hall
      exact absurd (hall _ (mem_set_self _ (get?_lt_length hw))) (by simp)
  | exit w hw h =>
    refine ⟨hnext, hlen, ?_, ?_⟩
    · intro i hi
      rcases hfill i hi with hres | hworker
      · exact Or.inl hres
      · exact Or.inr (mem_set_of_get?_ne _ hworker hw (by simp))
    · intro _
      dsimp only
      omega
  | finish w i hi hw =>
    refine ⟨hnext, by rw [List.length_set]; exact hlen, ?_, ?_⟩
    · intro i' hi'
      by_cases hii : i' = i
      · subst hii
        refine Or.inl ⟨items.get ⟨i', hi⟩, List.get?_eq_get hi, ?_⟩
        rw [List.get?_eq_getElem?]
        exact List.getElem?_set_self (by rw [hlen]; exact hi)
      · rcases hfill i' hi' with ⟨a, ha, hr⟩ | hworker
        · refine Or.inl ⟨a, ha, ?_⟩
          rw [List.get?_eq_getElem?,
            List.getElem?_set_ne (fun he => hii he.symm),
            ← List.get?_eq_getElem?]
          exact hr
        · exact Or.inr (mem_set_of_get?_ne _ hworker hw (by simp [hii]))
    · intro hall
      exact absurd (hall _ (mem_set_self _ (get?_lt_length hw))) (by simp)

/-- Helper: the invariant is carried along any reachable execution. -/
theorem builderInv_reaches {α β : Type} {items : List α} {mapper : α → Nat → β}
    {s t : BuilderSt β} (h : BuilderReaches items mapper s t)
    (hinv : BuilderInv items mapper s) : BuilderInv items mapper t := by
  induction h with
  | refl _ => exact hinv
  | head h₁ _ ih => exact ih (builderInv_step h₁ hinv)

/-- Claim C1: for every input list, every concurrency limit K ≥ 1 and every
per-item transform, any complete run of the mapWithConcurrencyLimit
worker semantics — any interleaving of claim/finish/exit steps from the
initial state to a state where every worker is done — ends with a results
array of the input's length in which slot i holds the transform's value
for input i, regardless of the limit and of the completion order. -/
theorem mapWithConcurrencyLimit_preserves_order {α β : Type}
    (items : List α) (mapper : α → Nat → β) (K : Nat) (hK : 1 ≤ K)
    (s : BuilderSt β)
    (hrun : BuilderReaches items mapper (builderInit α β items K) s)
    (hdone : ∀ w ∈ s.workers, w = BuilderWorker.done) :
    s.results.length = items.length ∧
    ∀ i (hi : i < items.length),
      s.results.get? i = some (some (mapper (items.get ⟨i, hi⟩) i)) := by
  have hinv := builderInv_reaches hrun (builderInv_init items mapper K hK)
  refine ⟨hinv.len, ?_⟩
  intro i hi
  have hN := hinv.live hdone
  rcases hinv.filled i (by omega) with ⟨a, ha, hr⟩ | hworker
  · have haeq : a = items.get ⟨i, hi⟩ := by
      rw [List.get?_eq_get hi] at ha
      exact (Option.some.inj ha).symm
    rw [← haeq]
    exact hr
  · exact absurd (hdone _ hworker) (by simp)

/-- Witness for the builder theorem: a two-item run with limit 2, through an
explicit interleaving in which the second claimed transform finishes
before the first, still fills slot 0 with the transform of item 0 and
slot 1 with the transform of item 1. -/
theorem mapWithConcurrencyLimit_preserves_order_witness :
    1 ≤ 2 ∧
    ((⟨2, [some 30, some 41], [BuilderWorker.done, BuilderWorker.done]⟩ :
        BuilderSt Nat).results.length = ([3, 4] : List Nat).length ∧
      ∀ i (hi : i < ([3, 4] : List Nat).length),
        (⟨2, [some 30, some 41], [BuilderWorker.done, BuilderWorker.done]⟩ :
          BuilderSt Nat).results.get? i =
          some (some ((fun a j => a * 10 + j) (([3, 4] : List Nat).get ⟨i, hi⟩) i))) := by
  refine ⟨by decide, ?_⟩
  refine mapWithConcurrencyLimit_preserves_order [3, 4] (fun a j => a * 10 + j) 2
    (by decide) _ ?_ (by decide)
  exact .head (.claim _ 0 rfl (by decide))
    (.head (.claim _ 1 rfl (by decide))
      (.head (.finish _ 1 1 (by decide) rfl)
        (.head (.finish _ 0 0 (by decide) rfl)
          (.head (.exit _ 0 rfl (by decide))
            (.head (.exit _ 1 rfl (by decide)) (.refl _))))))

end Grabr
